import Mathlib

/-!
Verification development for the tsunami-lambda-userdata account directory.

The program stores user accounts as JSON blobs in a flat key-value object
store (S3), together with two derived secondary indexes (`by-username`,
`by-email`).  This file gives a shallow embedding of the store, the
CreateAccount, Authenticate (login), GetAccount and RebuildIndexes
operations, and proves properties about them.

Modelling conventions, fixed once here:
* The S3 bucket is a finite association list from string keys to stored
  objects (`Store`).  `sget`/`sput`/`sdel`/`deleteBatch` model
  GetObject/PutObject/DeleteObjects.  A `GetObject` on an absent key is the
  `NoSuchKey` rejection of the source.
* Stored JSON blobs are modelled by the inductive `Obj`: a well-formed
  account file, a config file, an index file `{userId}`, or `raw` for a
  blob that does not parse as JSON.  A parsed JSON object that is not a
  complete account behaves in the source exactly like one whose
  `username`/`email` access fails, and is modelled by the non-`account`
  constructors.
* External collaborators (bcrypt, uuid, jwt, the clock) are parameters:
  `bhash`/`vfy` for bcrypt.hash/bcrypt.compare, `uid` for uuidv4(),
  `sign`/`jv` for jwt.sign/jwt.verify, `now` for Date.now().
* Diagnostic log lines pushed by the handlers (and embedded into every
  response body by `jsonResponse`) are modelled structurally by `LogEv`:
  distinct log strings of the source map to distinct constructors; the
  backend-supplied `err.message` suffixes are not modelled.
* Paginated `ListObjectsV2` enumeration is modelled by a caller-supplied
  page sequence `pages : List (List String)`; hypotheses state the S3
  listing contract (pages enumerate the keys under the requested prefix).
-/

/-- A stored JSON blob. -/
inductive Obj where
  | account (username password email birthday : String)
  | config (settings : List (String × String))
  | index (userId : String)
  | raw (s : String)
deriving DecidableEq

/-- The S3 bucket: an association list from keys to stored blobs.
`sget` reads the first matching entry; `sput` replaces any entry at the
key. -/
abbrev Store := List (String × Obj)

/-- GetObject: the stored blob at a key, or `none` (NoSuchKey). -/
def sget (st : Store) (k : String) : Option Obj :=
  (st.find? (fun p => p.1 == k)).map (fun p => p.2)

/-- PutObject: store a blob at a key, replacing any existing entry. -/
def sput (st : Store) (k : String) (v : Obj) : Store :=
  (k, v) :: st.filter (fun p => p.1 != k)

/-- Delete a single key. -/
def sdel (st : Store) (k : String) : Store :=
  st.filter (fun p => p.1 != k)

/-- DeleteObjects: delete a batch of keys. -/
def deleteBatch (st : Store) (ks : List String) : Store :=
  st.filter (fun p => !(ks.contains p.1))

/-- The keys present in the store. -/
def keysOf (st : Store) : List String :=
  st.map (fun p => p.1)

/-- Key prefix reasoning: `p` is a literal prefix of `s` (models JS
`startsWith` and the S3 `Prefix` listing parameter). -/
def strHasPre (p s : String) : Bool :=
  p.data.isPrefixOf s.data

/-- `p` is a literal suffix of `s` (models JS `endsWith`). -/
def strHasSuf (p s : String) : Bool :=
  p.data.isSuffixOf s.data

/-- Key of the primary account record: `users/<accountId>/account.json`. -/
def acctKey (uid : String) : String :=
  "users/" ++ uid ++ "/account.json"

/-- Key of the per-account config record: `users/<accountId>/config.json`. -/
def cfgKey (uid : String) : String :=
  "users/" ++ uid ++ "/config.json"

/-- Key of a by-username index entry for an already-lowercased value. -/
def unameKey (w : String) : String :=
  "users/by-username/" ++ w ++ ".json"

/-- Key of a by-email index entry for an already-lowercased value. -/
def emailKey (w : String) : String :=
  "users/by-email/" ++ w ++ ".json"

/-- ASCII lowercasing of a string, character by character; models the JS
`toLowerCase()` on the ASCII inputs admitted by the sanitizers. -/
def lowerStr (s : String) : String :=
  String.mk (s.data.map Char.toLower)

/-- Split a character list on a separator (the JS `split(sep)` /
`String.splitOn` semantics). -/
def splitChar (sep : Char) : List Char → List (List Char)
  | [] => [[]]
  | c :: rest =>
      match splitChar sep rest with
      | [] => [[]]
      | g :: gs => if c == sep then [] :: g :: gs else (c :: g) :: gs

/-- The numeric value of a digit list (`Number(...)` on an all-digit
string). -/
def natOfDigits (l : List Char) : Nat :=
  l.foldl (fun a c => a * 10 + (c.toNat - 48)) 0

/-- `usernameKey` as built by the source: lowercase, then embed. -/
def unameKeyOf (username : String) : String :=
  unameKey (lowerStr username)

/-- `emailKey` as built by the source: lowercase, then embed. -/
def emailKeyOf (email : String) : String :=
  emailKey (lowerStr email)

/-- `key.split("/")[1]`: the account id a `users/<uuid>/account.json` key
names (`""` when the key has no second segment). -/
def uidOf (k : String) : String :=
  String.mk (((splitChar '/' k.data).drop 1).headD [])

/-- Characters accepted by `sanitizeUsername`: `[A-Za-z0-9\-_.!$*+]`. -/
def usernameCharOk (c : Char) : Bool :=
  c.isAlpha || c.isDigit || c == '-' || c == '_' || c == '.' || c == '!' ||
    c == '$' || c == '*' || c == '+'

/-- `sanitizeUsername`: `true` means dirty/invalid (some character outside
the allowed set). -/
def sanitizeUsername (username : String) : Bool :=
  username.data.any (fun c => !(usernameCharOk c))

/-- Characters accepted by `sanitizePassword`:
`[A-Za-z0-9!$%^&*()\-_=+|;.\]]`. -/
def passwordCharOk (c : Char) : Bool :=
  c.isAlpha || c.isDigit || c == '!' || c == '$' || c == '%' || c == '^' ||
    c == '&' || c == '*' || c == '(' || c == ')' || c == '-' || c == '_' ||
    c == '=' || c == '+' || c == '|' || c == ';' || c == '.' || c == ']'

/-- `sanitizePassword`: `true` means dirty/invalid. -/
def sanitizePassword (password : String) : Bool :=
  password.data.any (fun c => !(passwordCharOk c))

/-- Characters accepted by `sanitizeEmail`: `[A-Za-z0-9.@_-]`. -/
def emailCharOk (c : Char) : Bool :=
  c.isAlpha || c.isDigit || c == '.' || c == '@' || c == '_' || c == '-'

/-- `sanitizeEmail`: `true` means dirty/invalid. -/
def sanitizeEmail (email : String) : Bool :=
  email.data.any (fun c => !(emailCharOk c))

/-- Shape test of the source regex `^\d{4}-\d{2}-\d{2}$`. -/
def isoShape (b : String) : Bool :=
  match splitChar '-' b.data with
  | [y, m, d] =>
      y.length == 4 && m.length == 2 && d.length == 2 &&
        y.all Char.isDigit && m.all Char.isDigit && d.all Char.isDigit
  | _ => false

/-- Gregorian leap-year rule, as implemented by the JS `Date` object. -/
def isLeap (y : Nat) : Bool :=
  (y % 4 == 0 && y % 100 != 0) || y % 400 == 0

/-- Days in a month of a given year. -/
def daysInMonth (y m : Nat) : Nat :=
  if m == 2 then (if isLeap y then 29 else 28)
  else if m == 4 || m == 6 || m == 9 || m == 11 then 30
  else 31

/-- The year/month/day read from an ISO-shaped birthday string. -/
def birthdayParts (b : String) : Nat × Nat × Nat :=
  match splitChar '-' b.data with
  | [y, m, d] => (natOfDigits y, natOfDigits m, natOfDigits d)
  | _ => (0, 0, 0)

/-- `sanitizeBirthday`: `true` means dirty/invalid.  The source checks the
ISO shape, then rebuilds `new Date(year, month-1, day)` and compares the
components to detect auto-correction.  That comparison succeeds exactly
when the triple is a real calendar date with `1 ≤ month ≤ 12`,
`1 ≤ day ≤ daysInMonth`, and `year ≥ 100` (for two-digit years the JS
`Date(year, ...)` constructor maps the year to `1900 + year`, so the
`getFullYear` comparison fails). -/
def sanitizeBirthday (b : String) : Bool :=
  if !(isoShape b) then true
  else
    let (y, m, d) := birthdayParts b
    !(100 ≤ y && 1 ≤ m && m ≤ 12 && 1 ≤ d && d ≤ daysInMonth y m)

/-- Days from 1970-01-01 to the civil date y-m-d (proleptic Gregorian);
models the UTC timestamp of `new Date("YYYY-MM-DD")`. -/
def daysFromCivil (y m d : Int) : Int :=
  let y := if m ≤ 2 then y - 1 else y
  let era := y.fdiv 400
  let yoe := y - era * 400
  let mp := (m + 9).emod 12
  let doy := (153 * mp + 2).fdiv 5 + d - 1
  let doe := yoe * 365 + yoe.fdiv 4 - yoe.fdiv 100 + doy
  era * 146097 + doe - 719468

/-- `new Date(birthday).getTime()` for an ISO-shaped birthday, in
milliseconds since the epoch. -/
def birthdayMs (b : String) : Int :=
  let (y, m, d) := birthdayParts b
  daysFromCivil (Int.ofNat y) (Int.ofNat m) (Int.ofNat d) * 86400000

/-- The age computation of `handleCreateAccount`:
`Math.floor((Date.now() - birthDate.getTime()) / (1000*60*60*24*365.25))`.
The divisor is the exact integer 31557600000; the floating-point rounding
of the JS division is not modelled (it can only matter at exact year
boundaries). -/
def computeAge (now : Int) (b : String) : Int :=
  (now - birthdayMs b).fdiv 31557600000

/-- Structured stand-ins for the log strings pushed by the handlers;
distinct source log lines map to distinct constructors. -/
inductive LogEv where
  | fieldsReceivedCreate (username email birthday : String)
  | fieldsReceivedLogin (username : String)
  | usernameNotFound
  | passwordMismatch
  | accountFileError
  | s3IndexCheckError
  | duplicateFound (f : String)
  | savedToS3
  | missingUsernameIdxRecreated
  | missingEmailIdxRecreated
  | configLoadFailed
  | missingToken
  | invalidTokenLog
  | accountLoadFailed
deriving DecidableEq

/-- The `data` part spread into the `jsonResponse` body. -/
inductive RData where
  | empty
  | userId (uid : String)
  | dupField (f : String)
  | loginData (token : String) (config : Option Obj)
      (username email birthday : String)
  | accountPayload (fields : List (String × String))
  | rebuilt (n : Nat)
  | rebuiltSkipped (r s : Nat)
deriving DecidableEq

/-- The structured response built by `jsonResponse(statusCode, status,
message, data, logs)`. -/
structure Resp where
  statusCode : Nat
  status : String
  message : String
  data : RData
  logs : List LogEv
deriving DecidableEq

/-- `jsonResponse`. -/
def mkResp (statusCode : Nat) (status message : String) (data : RData)
    (logs : List LogEv) : Resp :=
  ⟨statusCode, status, message, data, logs⟩

/-- The settled state of one of the two concurrent duplicate-check
lookups (`Promise.allSettled`): fulfilled, or rejected with an error
name. -/
inductive SRes where
  | fulfilled
  | rejected (name : String)
deriving DecidableEq

/-- Whether a settled lookup is a rejection whose name is not
`NoSuchKey` (the source's S3-error test). -/
def SRes.isStorageFailure : SRes → Bool
  | .fulfilled => false
  | .rejected n => n != "NoSuchKey"

/-- Fault injection for `GetObject`: keys listed here reject with the
paired error name instead of consulting the store. -/
def faultOf (faults : List (String × String)) (k : String) : Option String :=
  (faults.find? (fun p => p.1 == k)).map (fun p => p.2)

/-- The settled outcome of one duplicate-check `GetObject`. -/
def checkKey (faults : List (String × String)) (st : Store) (k : String) :
    SRes :=
  match faultOf faults k with
  | some n => .rejected n
  | none =>
      match sget st k with
      | some _ => .fulfilled
      | none => .rejected "NoSuchKey"

/-- Outcome of the duplicate check in `handleCreateAccount`. -/
inductive DupOutcome where
  | s3error
  | dup (field : String)
  | available
deriving DecidableEq

/-- Classification of the two settled lookups, in source order: a
fulfilled username lookup sets `duplicateField = "username"`, a fulfilled
email lookup sets it to `"email"` only if still unset; any rejection whose
name is not `NoSuchKey` then short-circuits to an S3 error; otherwise a
set `duplicateField` is a duplicate conflict, else available. -/
def classifyDupCheck (uRes eRes : SRes) : DupOutcome :=
  let df : Option String := if uRes = .fulfilled then some "username" else none
  let df : Option String :=
    if eRes = .fulfilled then (if df.isSome then df else some "email") else df
  if uRes.isStorageFailure || eRes.isStorageFailure then .s3error
  else
    match df with
    | some f => .dup f
    | none => .available

/-- Default config written at account creation:
`{ theme: "light", notifications: true }`. -/
def defaultConfig : List (String × String) :=
  [("theme", "light"), ("notifications", "true")]

/-- `handleCreateAccount` (acctdeletegit variant).  Parameters standing
for external collaborators: `bhash` for `bcrypt.hash`, `now` for
`Date.now()`, `uid` for `uuidv4()`, `faults` for injected S3 lookup
failures.  Fields arrive as strings; the JS falsy test on a string is the
empty-string test.  Returns the response and the resulting store. -/
def handleCreateAccount (bhash : String → String) (now : Int) (uid : String)
    (faults : List (String × String)) (st : Store)
    (username password email birthday : String) : Resp × Store :=
  let logs0 := [LogEv.fieldsReceivedCreate username email birthday]
  if username == "" || password == "" || email == "" || birthday == "" then
    (mkResp 400 "ERR_MISSING_FIELDS" "❌ Required fields are missing"
      .empty logs0, st)
  else if sanitizeUsername username || sanitizePassword password ||
      sanitizeEmail email || sanitizeBirthday birthday then
    (mkResp 400 "ERR_INVALID_FIELDS"
      "❌ Invalid characters in one or more fields" .empty logs0, st)
  else if computeAge now birthday < 10 then
    (mkResp 400 "ERR_TOO_YOUNG"
      "❌ You must be at least 10 years old to register" .empty logs0, st)
  else
    let usernameKey := unameKeyOf username
    let emailKey' := emailKeyOf email
    let uRes := checkKey faults st usernameKey
    let eRes := checkKey faults st emailKey'
    match classifyDupCheck uRes eRes with
    | .s3error =>
        (mkResp 500 "ERR_S3" "❌ S3 error" .empty
          (logs0 ++ [.s3IndexCheckError]), st)
    | .dup f =>
        (mkResp 409 "ERR_DUPLICATE_FIELD" ("❌ Duplicate " ++ f)
          (.dupField f) (logs0 ++ [.duplicateFound f]), st)
    | .available =>
        let account := Obj.account username (bhash password) email birthday
        let st1 := sput st (acctKey uid) account
        let st2 := sput st1 (cfgKey uid) (Obj.config defaultConfig)
        let st3 := sput st2 usernameKey (Obj.index uid)
        let st4 := sput st3 emailKey' (Obj.index uid)
        (mkResp 200 "SUCCESS_CREATE_ACCOUNT" "✅ Account created"
          (.userId uid) (logs0 ++ [.savedToS3]), st4)

/-- The `userId` a stored index blob yields when parsed
(`JSON.parse(...).userId`); a parsed non-index blob yields `undefined`,
and `raw` does not parse — both lead to the credentials-error branch. -/
def idxUserId : Obj → Option String
  | .index uid => some uid
  | _ => none

/-- Whether a stored blob parses as JSON (`raw` models a blob on which
`JSON.parse` throws). -/
def objParses : Obj → Bool
  | .raw _ => false
  | _ => true

/-- `handleLogin` (acctdeletegit variant, index-based lookup with
self-heal).  `vfy` stands for `bcrypt.compare`, `sign` for `jwt.sign`.
Returns the response, the resulting store, and the list of index keys
written by the self-heal step.  Branches:
* username-index key absent, or its blob fails `JSON.parse` — the first
  try/catch returns the credentials error ("Username not found" log);
* the blob parses but carries no `userId` (not an index blob), or the
  account record is absent or fails to parse — the second try/catch
  returns the credentials error ("Account file error" log);
* a parsed account record that is not a complete account compares
  `undefined === username`, so it takes the password-mismatch branch. -/
def handleLogin (vfy : String → String → Bool)
    (sign : String → String → String) (st : Store)
    (username password : String) : Resp × Store × List String :=
  let logs0 := [LogEv.fieldsReceivedLogin username]
  let invalidCreds := fun (l : List LogEv) =>
    mkResp 401 "ERR_INVALID_CREDENTIALS" "❌ Invalid username or password"
      .empty l
  if username == "" || password == "" then
    (mkResp 400 "ERR_MISSING_FIELDS" "❌ Missing fields" .empty logs0, st, [])
  else if sanitizeUsername username || sanitizePassword password then
    (mkResp 400 "ERR_INVALID_FIELDS"
      "❌ Invalid characters in username or password" .empty logs0, st, [])
  else
    let usernameKey := unameKeyOf username
    match sget st usernameKey with
    | none => (invalidCreds (logs0 ++ [.usernameNotFound]), st, [])
    | some (Obj.raw _) => (invalidCreds (logs0 ++ [.usernameNotFound]), st, [])
    | some idxObj =>
      match idxUserId idxObj with
      | none => (invalidCreds (logs0 ++ [.accountFileError]), st, [])
      | some uid =>
        match sget st (acctKey uid) with
        | none => (invalidCreds (logs0 ++ [.accountFileError]), st, [])
        | some (Obj.raw _) =>
            (invalidCreds (logs0 ++ [.accountFileError]), st, [])
        | some (Obj.account au ap ae ab) =>
            if au == username && vfy password ap then
              let emailKey' := emailKeyOf ae
              let needU := (sget st usernameKey).isNone
              let needE := (sget st emailKey').isNone
              let st1 :=
                if needU then sput st usernameKey (Obj.index uid) else st
              let st2 :=
                if needE then sput st1 emailKey' (Obj.index uid) else st1
              let writes := (if needU then [usernameKey] else []) ++
                (if needE then [emailKey'] else [])
              let healLogs :=
                (if needU then [LogEv.missingUsernameIdxRecreated] else []) ++
                (if needE then [LogEv.missingEmailIdxRecreated] else [])
              let cfgObj := sget st2 (cfgKey uid)
              let config : Option Obj :=
                match cfgObj with
                | some o => if objParses o then some o else none
                | none => none
              let cfgLogs : List LogEv :=
                match cfgObj with
                | some o => if objParses o then [] else [.configLoadFailed]
                | none => [.configLoadFailed]
              (mkResp 200 "SUCCESS_LOGIN" "✅ Login successful"
                (.loginData (sign uid username) config au ae ab)
                (logs0 ++ healLogs ++ cfgLogs), st2, writes)
            else
              (invalidCreds (logs0 ++ [.passwordMismatch]), st, [])
        | some _ => (invalidCreds (logs0 ++ [.passwordMismatch]), st, [])

/-- The rest-destructuring `const { password, ...safeAccount } = account`
applied to a parsed blob, as an ordered field list. -/
def stripPassword : Obj → List (String × String)
  | .account u _ e b => [("username", u), ("email", e), ("birthday", b)]
  | .config cs => cs
  | .index uid => [("userId", uid)]
  | .raw _ => []

/-- `handleGetAccount`.  `jv` stands for `jwt.verify` (token to the
`userId` claim, `some ""` for a token whose payload lacks `userId`). -/
def handleGetAccount (jv : String → Option String) (st : Store)
    (token : Option String) : Resp :=
  match token with
  | none =>
      mkResp 401 "ERR_NOT_LOGGED_IN" "❌ Unauthorized: Missing token"
        .empty [.missingToken]
  | some t =>
    match jv t with
    | none =>
        mkResp 401 "ERR_NOT_LOGGED_IN" "❌ Unauthorized: Invalid token"
          .empty [.invalidTokenLog]
    | some uid =>
      if uid == "" then
        mkResp 400 "ERR_MISSING_FIELDS" "❌ Missing userId" .empty []
      else
        match sget st (acctKey uid) with
        | none =>
            mkResp 404 "ERR_ACCOUNT_NOT_FOUND" "❌ Account not found"
              .empty [.accountLoadFailed]
        | some (Obj.raw _) =>
            mkResp 404 "ERR_ACCOUNT_NOT_FOUND" "❌ Account not found"
              .empty [.accountLoadFailed]
        | some o =>
            mkResp 200 "SUCCESS_GET_ACCOUNT" "✅ Account fetched"
              (.accountPayload (stripPassword o)) []

/-- One account key processed by the additive rebuild (index.mjs): fetch
the record; for a well-formed account, check each index key and write it
only if absent; returns the updated store and whether any write occurred
(`some true` rebuilt, `some false` skipped, `none` for the caught
per-account failure: absent key, unparseable blob, or a parsed blob whose
`username`/`email` access fails). -/
def processAcctAdd (st : Store) (k : String) : Store × Option Bool :=
  let userId := uidOf k
  match sget st k with
  | some (Obj.account u _ e _) =>
      let usernameKey := unameKey (lowerStr u)
      let emailKey' := emailKey (lowerStr e)
      let needUsername := (sget st usernameKey).isNone
      let needEmail := (sget st emailKey').isNone
      let st1 :=
        if needUsername then sput st usernameKey (Obj.index userId) else st
      let st2 :=
        if needEmail then sput st1 emailKey' (Obj.index userId) else st1
      (st2, some (needUsername || needEmail))
  | _ => (st, none)

/-- The additive rebuild's inner loop over the account keys of one or
more pages, threading the `rebuilt`/`skipped` counters. -/
def runAddKeys (st : Store) (ks : List String) (r s : Nat) :
    Store × Nat × Nat :=
  match ks with
  | [] => (st, r, s)
  | k :: rest =>
      match processAcctAdd st k with
      | (st', some true) => runAddKeys st' rest (r + 1) s
      | (st', some false) => runAddKeys st' rest r (s + 1)
      | (st', none) => runAddKeys st' rest r s

/-- The account keys the paginated listing loop visits, in order: each
page's contents filtered to keys ending in `account.json`. -/
def visitedAccountKeys (pages : List (List String)) : List String :=
  (pages.map (fun pg =>
    pg.filter (fun k => strHasSuf "account.json" k))).flatten

/-- `handleRebuildIndexes` of index.mjs (additive policy): paginate over
the `users/` listing, process each page's account keys, and return the
final store with the `rebuilt` and `skipped` counters. -/
def rebuildAdditive (st : Store) (pages : List (List String)) :
    Store × Nat × Nat :=
  pages.foldl
    (fun acc pg =>
      runAddKeys acc.1 (pg.filter (fun k => strHasSuf "account.json" k))
        acc.2.1 acc.2.2)
    (st, 0, 0)

/-- One account key processed by the destructive rebuild
(acctdeletegit): fetch the record; for a well-formed account write both
index entries unconditionally; per-account failures are caught and
skipped. -/
def processAcctDestr (st : Store) (k : String) : Store × Bool :=
  let userId := uidOf k
  match sget st k with
  | some (Obj.account u _ e _) =>
      let st1 := sput st (unameKey (lowerStr u)) (Obj.index userId)
      let st2 := sput st1 (emailKey (lowerStr e)) (Obj.index userId)
      (st2, true)
  | _ => (st, false)

/-- The destructive rebuild's inner loop, threading `rebuilt`. -/
def runDestrKeys (st : Store) (ks : List String) (r : Nat) : Store × Nat :=
  match ks with
  | [] => (st, r)
  | k :: rest =>
      match processAcctDestr st k with
      | (st', true) => runDestrKeys st' rest (r + 1)
      | (st', false) => runDestrKeys st' rest r

/-- Step 0 of the destructive rebuild for one index namespace: list pages
under the namespace and delete each page's keys in a batch. -/
def clearLoop (st : Store) (pages : List (List String)) : Store :=
  pages.foldl (fun s pg => deleteBatch s pg) st

/-- `handleRebuildIndexes` of acctdeletegit (destructive policy): clear
every key under `users/by-username/` and `users/by-email/`, then paginate
over the `users/` listing and rewrite both index entries for every
account record. -/
def rebuildDestructive (st : Store) (pagesU pagesE pages : List (List String)) :
    Store × Nat :=
  let st0 := clearLoop st pagesU
  let st1 := clearLoop st0 pagesE
  pages.foldl
    (fun acc pg =>
      runDestrKeys acc.1 (pg.filter (fun k => strHasSuf "account.json" k))
        acc.2)
    (st1, 0)

/-- The successful response of the additive rebuild pass. -/
def handleRebuildIndexesAdd (st : Store) (pages : List (List String)) :
    Resp × Store :=
  let res := rebuildAdditive st pages
  (mkResp 200 "SUCCESS_REBUILD_INDEXES" "✅ Index rebuild complete"
    (.rebuiltSkipped res.2.1 res.2.2) [], res.1)

/-- The successful response of the destructive rebuild pass. -/
def handleRebuildIndexesDestr (st : Store)
    (pagesU pagesE pages : List (List String)) : Resp × Store :=
  let res := rebuildDestructive st pagesU pagesE pages
  (mkResp 200 "SUCCESS_REBUILD_INDEXES" "✅ Index rebuild complete"
    (.rebuilt res.2) [], res.1)

/-- The by-username or by-email entries of a store that reference a given
account id (used to state the index invariants). -/
def entriesRef (st : Store) (pre : String) (uid : String) : List String :=
  (keysOf st).filter
    (fun k => strHasPre pre k && decide (sget st k = some (Obj.index uid)))

/-- Concrete stand-in for `bcrypt.hash` used by concrete scenarios. -/
def wHash (p : String) : String := "h|" ++ p

/-- Concrete stand-in for `bcrypt.compare` matching `wHash`. -/
def wVfy (p h : String) : Bool := h == "h|" ++ p

/-- Concrete stand-in for `jwt.sign` used by concrete scenarios. -/
def wSign (uid un : String) : String := "t|" ++ uid ++ "|" ++ un

/-- The store produced by one successful concrete account creation. -/
def wCreated : Store :=
  (handleCreateAccount wHash 1700000000000 "u1" [] []
    "alice" "pw1" "a@x.com" "2000-01-01").2

/-- A concrete 5-account store for pagination scenarios. -/
def wStore5 : Store :=
  [(acctKey "a", Obj.account "ua" "h" "a@x" "2000-01-01"),
   (acctKey "b", Obj.account "ub" "h" "b@x" "2000-01-01"),
   (acctKey "c", Obj.account "uc" "h" "c@x" "2000-01-01"),
   (acctKey "d", Obj.account "ud" "h" "d@x" "2000-01-01"),
   (acctKey "e", Obj.account "ue" "h" "e@x" "2000-01-01")]

/-- A page decomposition of `wStore5`'s keys with at most 2 keys per
page. -/
def wPages5 : List (List String) :=
  [[acctKey "a", acctKey "b"], [acctKey "c", acctKey "d"], [acctKey "e"]]

/-- A single listing page covering the keys of `wCreated`. -/
def wPagesC : List (List String) :=
  [[emailKeyOf "a@x.com", unameKeyOf "alice", cfgKey "u1", acctKey "u1"]]

/-- An account scenario record used to state the destructive-rebuild
post-condition. -/
structure AcctRec where
  uid : String
  uname : String
  pw : String
  email : String
  bday : String
deriving DecidableEq

/-- Whether processing the account key `k` (read from snapshot `s0`)
writes the index key `q`, and the account id it writes there. -/
def idxWriteAt (s0 : Store) (q k : String) : Option String :=
  match sget s0 k with
  | some (Obj.account u _ e _) =>
      if q = unameKey (lowerStr u) ∨ q = emailKey (lowerStr e) then
        some (uidOf k)
      else none
  | _ => none

/-- The account id of the last processed account (in key order) whose
rewritten index keys include `q`, reading account records from the
snapshot `s0`: the destructive pass's net effect at an index key. -/
def lastIdxWrite (s0 : Store) (ks : List String) (q : String) :
    Option String :=
  ks.reverse.findSome? (idxWriteAt s0 q)

/-- Two accounts with the same normalized username: the race-duplicate
shape the spec documents as reachable. -/
def wDupStore : Store :=
  [(acctKey "u1", Obj.account "alice" "h1" "a@x.com" "2000-01-01"),
   (acctKey "u2", Obj.account "alice" "h2" "b@y.com" "2000-01-02")]

/-- Two accounts with distinct normalized usernames and emails, plus one
stale index entry to be cleared. -/
def wDistinctStore : Store :=
  [(acctKey "u1", Obj.account "alice" "h1" "a@x.com" "2000-01-01"),
   (acctKey "u2", Obj.account "bob" "h2" "b@y.com" "2000-01-02"),
   (unameKeyOf "stale", Obj.index "gone")]

/-- The account records of `wDistinctStore`. -/
def wAccts2 : List AcctRec :=
  [⟨"u1", "alice", "h1", "a@x.com", "2000-01-01"⟩,
   ⟨"u2", "bob", "h2", "b@y.com", "2000-01-02"⟩]

theorem sget_sput_self (st : Store) (k : String) (v : Obj) :
    sget (sput st k v) k = some v := by
  simp [sget, sput]

theorem sget_sput_ne (st : Store) (k k' : String) (v : Obj) (h : k' ≠ k) :
    sget (sput st k v) k' = sget st k' := by
  simp only [sget, sput, List.find?]
  have hb : (k == k') = false := by
    simp [beq_iff_eq]; exact fun he => h he.symm
  simp only [hb]
  induction st with
  | nil => simp
  | cons a t ih =>
    by_cases hak : a.1 = k
    · simp only [List.filter]
      have : (a.1 != k) = false := by simp [bne, hak]
      simp only [this]
      have : (a.1 == k') = false := by
        simp [beq_iff_eq, hak]; exact fun he => h he.symm
      rw [List.find?]
      simp only [this, cond_false]
      exact ih
    · simp only [List.filter]
      have : (a.1 != k) = true := by simp [bne, beq_iff_eq]; exact hak
      simp only [this]
      by_cases hak' : a.1 = k'
      · rw [List.find?, List.find?]
        have hb2 : (a.1 == k') = true := by simp [beq_iff_eq, hak']
        simp [hb2]
      · rw [List.find?, List.find?]
        have hb2 : (a.1 == k') = false := by simp [beq_iff_eq, hak']
        simp only [hb2, cond_false]
        exact ih

theorem sget_sdel_self (st : Store) (k : String) :
    sget (sdel st k) k = none := by
  simp only [sget, sdel]
  rw [List.find?_eq_none.2]
  · rfl
  · intro p hp
    have := List.of_mem_filter hp
    simp [bne] at this
    simp [beq_iff_eq, this]

theorem sget_sdel_ne (st : Store) (k k' : String) (h : k' ≠ k) :
    sget (sdel st k) k' = sget st k' := by
  simp only [sget, sdel]
  induction st with
  | nil => simp
  | cons a t ih =>
    by_cases hak : a.1 = k
    · simp only [List.filter]
      have : (a.1 != k) = false := by simp [bne, hak]
      simp only [this]
      rw [List.find?]
      have : (a.1 == k') = false := by
        simp [beq_iff_eq, hak]; exact fun he => h he.symm
      simp only [this, cond_false]
      exact ih
    · simp only [List.filter]
      have : (a.1 != k) = true := by simp [bne, beq_iff_eq]; exact hak
      simp only [this]
      rw [List.find?, List.find?]
      by_cases hak' : a.1 = k'
      · have hb2 : (a.1 == k') = true := by simp [beq_iff_eq, hak']
        simp [hb2]
      · have hb2 : (a.1 == k') = false := by simp [beq_iff_eq, hak']
        simp only [hb2, cond_false]
        exact ih

theorem sget_eq_none_iff (st : Store) (k : String) :
    sget st k = none ↔ k ∉ keysOf st := by
  simp only [sget, keysOf]
  constructor
  · intro h hk
    rcases List.mem_map.1 hk with ⟨p, hp, hpk⟩
    have := List.find?_eq_none.1 (by
      cases hfind : List.find? (fun p => p.1 == k) st with
      | none => rfl
      | some q => simp [hfind] at h) p hp
    simp [beq_iff_eq, hpk] at this
  · intro hk
    rw [List.find?_eq_none.2]
    · rfl
    · intro p hp hb
      apply hk
      exact List.mem_map.2 ⟨p, hp, by simpa [beq_iff_eq] using hb⟩

theorem sget_isSome_of_mem_keysOf (st : Store) (k : String)
    (h : k ∈ keysOf st) : (sget st k).isSome := by
  cases hg : sget st k with
  | none => exact absurd h ((sget_eq_none_iff st k).1 hg)
  | some v => rfl

theorem strHasPre_append (p t : String) : strHasPre p (p ++ t) = true := by
  simp only [strHasPre, String.data_append]
  have : ∀ (l r : List Char), l.isPrefixOf (l ++ r) = true := by
    intro l r
    induction l with
    | nil => simp [List.isPrefixOf]
    | cons a l ih => simp [List.isPrefixOf, ih]
  exact this _ _

theorem isPrefixOf_getElem : ∀ (l m : List Char), l.isPrefixOf m = true →
    ∀ i, i < l.length → m[i]? = l[i]? := by
  intro l
  induction l with
  | nil => intro m _ i hi; simp at hi
  | cons a l ih =>
    intro m h i hi
    cases m with
    | nil => simp [List.isPrefixOf] at h
    | cons b m =>
      simp only [List.isPrefixOf, Bool.and_eq_true, beq_iff_eq] at h
      obtain ⟨rfl, h2⟩ := h
      cases i with
      | zero => simp
      | succ j =>
        simp only [List.getElem?_cons_succ]
        exact ih m h2 j (by simpa using hi)

theorem data_get9_of_pre {p s : String} (hp : strHasPre p s = true)
    (h9 : 9 < p.data.length) : s.data[9]? = p.data[9]? := by
  exact isPrefixOf_getElem p.data s.data hp 9 h9

theorem unameKey_data_get9 (w : String) :
    (unameKey w).data[9]? = some 'u' := by
  have h := strHasPre_append "users/by-username/" (w ++ ".json")
  have := data_get9_of_pre (p := "users/by-username/")
      (s := "users/by-username/" ++ (w ++ ".json")) h (by decide)
  simp only [unameKey, String.append_assoc]
  rw [this]
  decide

theorem emailKey_data_get9 (w : String) :
    (emailKey w).data[9]? = some 'e' := by
  have h := strHasPre_append "users/by-email/" (w ++ ".json")
  have := data_get9_of_pre (p := "users/by-email/")
      (s := "users/by-email/" ++ (w ++ ".json")) h (by decide)
  simp only [emailKey, String.append_assoc]
  rw [this]
  decide

/-- A by-username key is never a by-email key. -/
theorem unameKey_ne_emailKey (w w' : String) : unameKey w ≠ emailKey w' := by
  intro h
  have h1 := unameKey_data_get9 w
  have h2 := emailKey_data_get9 w'
  rw [h] at h1
  rw [h1] at h2
  simp at h2

theorem unameKeyOf_ne_emailKeyOf (u e : String) :
    unameKeyOf u ≠ emailKeyOf e :=
  unameKey_ne_emailKey (lowerStr u) (lowerStr e)

/-- Keys carrying the by-username prefix never carry the by-email prefix. -/
theorem not_pre_email_of_pre_uname {k : String}
    (h : strHasPre "users/by-username/" k = true) :
    strHasPre "users/by-email/" k = false := by
  by_contra hc
  have he : strHasPre "users/by-email/" k = true := by
    cases hx : strHasPre "users/by-email/" k
    · exact absurd hx hc
    · rfl
  have h1 := data_get9_of_pre h (by decide)
  have h2 := data_get9_of_pre he (by decide)
  rw [h1] at h2
  simp at h2

theorem unameKey_pre (w : String) :
    strHasPre "users/by-username/" (unameKey w) = true := by
  have := strHasPre_append "users/by-username/" (w ++ ".json")
  simpa [unameKey, String.append_assoc] using this

theorem emailKey_pre (w : String) :
    strHasPre "users/by-email/" (emailKey w) = true := by
  have := strHasPre_append "users/by-email/" (w ++ ".json")
  simpa [emailKey, String.append_assoc] using this

theorem ne_of_length_ne {s t : String} (h : s.length ≠ t.length) : s ≠ t := by
  intro he; exact h (he ▸ rfl)

/-- The account record key and the config key of an account id differ. -/
theorem acctKey_ne_cfgKey (uid : String) : acctKey uid ≠ cfgKey uid := by
  apply ne_of_length_ne
  simp [acctKey, cfgKey, String.length_append]
  intro h
  have h1 : ("/account.json" : String).length = 13 := by decide
  have h2 : ("/config.json" : String).length = 12 := by decide
  rw [h1, h2] at h
  omega

theorem sget_some_mem_keysOf {st : Store} {k : String} {v : Obj}
    (h : sget st k = some v) : k ∈ keysOf st := by
  by_contra hk
  rw [(sget_eq_none_iff st k).2 hk] at h
  exact Option.noConfusion h

theorem checkKey_nil_of_none {st : Store} {k : String}
    (h : sget st k = none) : checkKey [] st k = .rejected "NoSuchKey" := by
  simp [checkKey, faultOf, h]

theorem checkKey_nil_of_some {st : Store} {k : String} {v : Obj}
    (h : sget st k = some v) : checkKey [] st k = .fulfilled := by
  simp [checkKey, faultOf, h]

theorem checkKey_nil_not_failure (st : Store) (k : String) :
    (checkKey [] st k).isStorageFailure = false := by
  cases h : sget st k with
  | none => rw [checkKey_nil_of_none h]; simp [SRes.isStorageFailure]
  | some v => rw [checkKey_nil_of_some h]; simp [SRes.isStorageFailure]

theorem classify_fulfilled_left {x : SRes} (hx : x.isStorageFailure = false) :
    classifyDupCheck .fulfilled x = .dup "username" := by
  cases x with
  | fulfilled => decide
  | rejected n =>
    simp only [SRes.isStorageFailure, bne_eq_false_iff_eq] at hx
    subst hx
    decide

theorem classify_both_missing :
    classifyDupCheck (.rejected "NoSuchKey") (.rejected "NoSuchKey") =
      .available := by
  decide

/-- When all re-validation passes and both index keys are free,
`handleCreateAccount` succeeds and issues exactly the four writes. -/
theorem handleCreateAccount_success (bhash : String → String) (now : Int)
    (uid : String) (st : Store) (u p e b : String)
    (hu : (u == "") = false) (hp : (p == "") = false)
    (he : (e == "") = false) (hb : (b == "") = false)
    (hsu : sanitizeUsername u = false) (hsp : sanitizePassword p = false)
    (hse : sanitizeEmail e = false) (hsb : sanitizeBirthday b = false)
    (hage : ¬ computeAge now b < 10)
    (havU : sget st (unameKeyOf u) = none)
    (havE : sget st (emailKeyOf e) = none) :
    handleCreateAccount bhash now uid [] st u p e b =
      (mkResp 200 "SUCCESS_CREATE_ACCOUNT" "✅ Account created" (.userId uid)
        [.fieldsReceivedCreate u e b, .savedToS3],
       sput (sput (sput (sput st (acctKey uid) (Obj.account u (bhash p) e b))
         (cfgKey uid) (Obj.config defaultConfig))
         (unameKeyOf u) (Obj.index uid)) (emailKeyOf e) (Obj.index uid)) := by
  simp only [handleCreateAccount, hu, hp, he, hb, hsu, hsp, hse, hsb,
    Bool.or_self, Bool.or_false, Bool.false_or, if_false, if_neg hage,
    checkKey_nil_of_none havU, checkKey_nil_of_none havE,
    classify_both_missing]
  simp

/-- C10: for every stored account record, the get-account success payload
is the account object with the `password` field removed and every other
field returned unchanged; in particular no `password` field appears in
it. -/
theorem get_account_omits_password (jv : String → Option String)
    (st : Store) (t uid u pw e b : String)
    (hjv : jv t = some uid) (hne : (uid == "") = false)
    (hacc : sget st (acctKey uid) = some (Obj.account u pw e b)) :
    handleGetAccount jv st (some t) =
      mkResp 200 "SUCCESS_GET_ACCOUNT" "✅ Account fetched"
        (.accountPayload [("username", u), ("email", e), ("birthday", b)])
        [] ∧
    ∀ v, ("password", v) ∉ stripPassword (Obj.account u pw e b) := by
  constructor
  · simp only [handleGetAccount, hjv, hne, hacc, stripPassword]
    simp
  · intro v hv
    simp only [stripPassword, List.mem_cons, List.not_mem_nil, or_false]
      at hv
    rw [Prod.mk.injEq, Prod.mk.injEq, Prod.mk.injEq] at hv
    rcases hv with h | h | h <;> exact absurd h.1 (by decide)

/-- Witness for `get_account_omits_password` at a concrete token map and
store. -/
theorem get_account_omits_password_witness :
    handleGetAccount (fun t => if t == "tok" then some "u1" else none)
        [(acctKey "u1", Obj.account "alice" "h1" "a@x.com" "2000-01-01")]
        (some "tok") =
      mkResp 200 "SUCCESS_GET_ACCOUNT" "✅ Account fetched"
        (.accountPayload
          [("username", "alice"), ("email", "a@x.com"),
            ("birthday", "2000-01-01")]) [] ∧
    ∀ v, ("password", v) ∉
      stripPassword (Obj.account "alice" "h1" "a@x.com" "2000-01-01") :=
  get_account_omits_password _ _ "tok" "u1" "alice" "h1" "a@x.com"
    "2000-01-01" (by decide) (by decide) (by decide)

/-- C8: if either duplicate-check lookup rejects with an error whose name
is not `NoSuchKey`, CreateAccount aborts with the S3 error response and
writes nothing — even when the other lookup found an existing entry. -/
theorem storage_error_aborts_duplicate_check
    (bhash : String → String) (now : Int) (uid : String)
    (faults : List (String × String)) (st : Store) (u p e b : String)
    (hu : (u == "") = false) (hp : (p == "") = false)
    (he : (e == "") = false) (hb : (b == "") = false)
    (hsu : sanitizeUsername u = false) (hsp : sanitizePassword p = false)
    (hse : sanitizeEmail e = false) (hsb : sanitizeBirthday b = false)
    (hage : ¬ computeAge now b < 10)
    (hf : (∃ n, faultOf faults (unameKeyOf u) = some n ∧ n ≠ "NoSuchKey") ∨
          (∃ n, faultOf faults (emailKeyOf e) = some n ∧ n ≠ "NoSuchKey")) :
    handleCreateAccount bhash now uid faults st u p e b =
      (mkResp 500 "ERR_S3" "❌ S3 error" .empty
        [.fieldsReceivedCreate u e b, .s3IndexCheckError], st) := by
  have hcl : classifyDupCheck (checkKey faults st (unameKeyOf u))
      (checkKey faults st (emailKeyOf e)) = .s3error := by
    rcases hf with ⟨n, hn, hne⟩ | ⟨n, hn, hne⟩
    · have h1 : checkKey faults st (unameKeyOf u) = .rejected n := by
        simp [checkKey, hn]
      rw [h1]
      have h2 : (SRes.rejected n).isStorageFailure = true := by
        simp [SRes.isStorageFailure, bne_iff_ne, hne]
      simp [classifyDupCheck, h2]
    · have h1 : checkKey faults st (emailKeyOf e) = .rejected n := by
        simp [checkKey, hn]
      rw [h1]
      have h2 : (SRes.rejected n).isStorageFailure = true := by
        simp [SRes.isStorageFailure, bne_iff_ne, hne]
      simp [classifyDupCheck, h2]
  simp only [handleCreateAccount, hu, hp, he, hb, hsu, hsp, hse, hsb,
    Bool.or_self, Bool.or_false, Bool.false_or, if_false, if_neg hage, hcl]
  simp

/-- Witness for `storage_error_aborts_duplicate_check`: the username
lookup rejects with `InternalError` while the email lookup finds an
existing entry; the call still aborts with the S3 error. -/
theorem storage_error_aborts_duplicate_check_witness :
    handleCreateAccount wHash 1700000000000 "u9"
        [(unameKeyOf "alice", "InternalError")]
        [(emailKeyOf "a@x.com", Obj.index "zz")]
        "alice" "pw1" "a@x.com" "2000-01-01" =
      (mkResp 500 "ERR_S3" "❌ S3 error" .empty
        [.fieldsReceivedCreate "alice" "a@x.com" "2000-01-01",
          .s3IndexCheckError],
       [(emailKeyOf "a@x.com", Obj.index "zz")]) :=
  storage_error_aborts_duplicate_check wHash 1700000000000 "u9" _ _
    "alice" "pw1" "a@x.com" "2000-01-01" (by decide) (by decide) (by decide)
    (by decide) (by decide) (by decide) (by decide) (by decide) (by decide)
    (Or.inl ⟨"InternalError", by decide, by decide⟩)

/-- C5 counterexample: an input whose username, email and birthday are all
present is nevertheless rejected by CreateAccount over its field content
(a space in the username), refuting the no-re-validation claim. -/
theorem create_account_rejects_invalid_characters :
    (handleCreateAccount wHash 1700000000000 "u1" [] []
        "bad name" "pw1" "a@x.com" "2000-01-01").1 =
      mkResp 400 "ERR_INVALID_FIELDS"
        "❌ Invalid characters in one or more fields" .empty
        [.fieldsReceivedCreate "bad name" "a@x.com" "2000-01-01"] := by
  decide

/-- C5 amended: `handleCreateAccount` re-validates field content — it
rejects character-set violations and under-age birthdays before touching
the store — but an input passing those checks is never rejected on field
content: the outcome is the storage error, the duplicate conflict, or
success. -/
theorem validated_input_not_rejected_on_content
    (bhash : String → String) (now : Int) (uid : String)
    (faults : List (String × String)) (st : Store) (u p e b : String)
    (hu : (u == "") = false) (hp : (p == "") = false)
    (he : (e == "") = false) (hb : (b == "") = false)
    (hsu : sanitizeUsername u = false) (hsp : sanitizePassword p = false)
    (hse : sanitizeEmail e = false) (hsb : sanitizeBirthday b = false)
    (hage : ¬ computeAge now b < 10) :
    (handleCreateAccount bhash now uid faults st u p e b).1.status =
        "ERR_S3" ∨
    (handleCreateAccount bhash now uid faults st u p e b).1.status =
        "ERR_DUPLICATE_FIELD" ∨
    (handleCreateAccount bhash now uid faults st u p e b).1.status =
        "SUCCESS_CREATE_ACCOUNT" := by
  simp only [handleCreateAccount, hu, hp, he, hb, hsu, hsp, hse, hsb,
    Bool.or_self, Bool.or_false, Bool.false_or, if_false, if_neg hage]
  cases hc : classifyDupCheck (checkKey faults st (unameKeyOf u))
      (checkKey faults st (emailKeyOf e)) <;> simp [hc, mkResp]

/-- Witness for `validated_input_not_rejected_on_content` on a clean
store. -/
theorem validated_input_not_rejected_on_content_witness :
    (handleCreateAccount wHash 1700000000000 "u1" [] []
        "alice" "pw1" "a@x.com" "2000-01-01").1.status = "ERR_S3" ∨
    (handleCreateAccount wHash 1700000000000 "u1" [] []
        "alice" "pw1" "a@x.com" "2000-01-01").1.status =
        "ERR_DUPLICATE_FIELD" ∨
    (handleCreateAccount wHash 1700000000000 "u1" [] []
        "alice" "pw1" "a@x.com" "2000-01-01").1.status =
        "SUCCESS_CREATE_ACCOUNT" :=
  validated_input_not_rejected_on_content wHash 1700000000000 "u1" [] []
    "alice" "pw1" "a@x.com" "2000-01-01" (by decide) (by decide) (by decide)
    (by decide) (by decide) (by decide) (by decide) (by decide) (by decide)

/-- C4: after a successful creation, an immediate second creation with the
same username (and a different email) returns the duplicate conflict
naming `username` and writes no account record, config record, or index
entry: the store is returned unchanged. -/
theorem duplicate_username_create_rejected
    (bhash : String → String) (now now2 : Int) (uid uid2 : String)
    (st : Store) (u p e b p2 e2 b2 : String)
    (hu : (u == "") = false) (hp : (p == "") = false)
    (he : (e == "") = false) (hb : (b == "") = false)
    (hsu : sanitizeUsername u = false) (hsp : sanitizePassword p = false)
    (hse : sanitizeEmail e = false) (hsb : sanitizeBirthday b = false)
    (hage : ¬ computeAge now b < 10)
    (havU : sget st (unameKeyOf u) = none)
    (havE : sget st (emailKeyOf e) = none)
    (h2p : (p2 == "") = false) (h2e : (e2 == "") = false)
    (h2b : (b2 == "") = false)
    (h2sp : sanitizePassword p2 = false) (h2se : sanitizeEmail e2 = false)
    (h2sb : sanitizeBirthday b2 = false)
    (h2age : ¬ computeAge now2 b2 < 10) :
    (handleCreateAccount bhash now uid [] st u p e b).1.statusCode = 200 ∧
    handleCreateAccount bhash now2 uid2 []
        (handleCreateAccount bhash now uid [] st u p e b).2 u p2 e2 b2 =
      (mkResp 409 "ERR_DUPLICATE_FIELD" "❌ Duplicate username"
        (.dupField "username")
        [.fieldsReceivedCreate u e2 b2, .duplicateFound "username"],
       (handleCreateAccount bhash now uid [] st u p e b).2) := by
  have hsucc := handleCreateAccount_success bhash now uid st u p e b hu hp
    he hb hsu hsp hse hsb hage havU havE
  refine ⟨by rw [hsucc]; rfl, ?_⟩
  rw [hsucc]
  have hidx : sget (sput (sput (sput (sput st (acctKey uid)
      (Obj.account u (bhash p) e b)) (cfgKey uid)
      (Obj.config defaultConfig)) (unameKeyOf u) (Obj.index uid))
      (emailKeyOf e) (Obj.index uid)) (unameKeyOf u) =
      some (Obj.index uid) := by
    rw [sget_sput_ne _ (emailKeyOf e) (unameKeyOf u) _
      (unameKeyOf_ne_emailKeyOf u e), sget_sput_self]
  have hdup := classify_fulfilled_left
    (checkKey_nil_not_failure (sput (sput (sput (sput st (acctKey uid)
      (Obj.account u (bhash p) e b)) (cfgKey uid)
      (Obj.config defaultConfig)) (unameKeyOf u) (Obj.index uid))
      (emailKeyOf e) (Obj.index uid)) (emailKeyOf e2))
  simp only [handleCreateAccount, hu, h2p, h2e, h2b, hsu, h2sp, h2se, h2sb,
    Bool.or_self, Bool.or_false, Bool.false_or, if_false, if_neg h2age,
    checkKey_nil_of_some hidx, hdup]
  rfl

/-- Witness for `duplicate_username_create_rejected` on a clean store. -/
theorem duplicate_username_create_rejected_witness :
    (handleCreateAccount wHash 1700000000000 "u1" [] []
        "alice" "pw1" "a@x.com" "2000-01-01").1.statusCode = 200 ∧
    handleCreateAccount wHash 1700000000000 "u2" []
        (handleCreateAccount wHash 1700000000000 "u1" [] []
          "alice" "pw1" "a@x.com" "2000-01-01").2
        "alice" "pw2" "b@y.com" "2001-05-05" =
      (mkResp 409 "ERR_DUPLICATE_FIELD" "❌ Duplicate username"
        (.dupField "username")
        [.fieldsReceivedCreate "alice" "b@y.com" "2001-05-05",
          .duplicateFound "username"],
       (handleCreateAccount wHash 1700000000000 "u1" [] []
         "alice" "pw1" "a@x.com" "2000-01-01").2) :=
  duplicate_username_create_rejected wHash 1700000000000 1700000000000
    "u1" "u2" [] "alice" "pw1" "a@x.com" "2000-01-01" "pw2" "b@y.com"
    "2001-05-05" (by decide) (by decide) (by decide) (by decide)
    (by decide) (by decide) (by decide) (by decide) (by decide)
    (by decide) (by decide) (by decide) (by decide) (by decide)
    (by decide) (by decide) (by decide) (by decide)

/-- Login with an absent username index: the invalid-credentials response,
no store change, no writes. -/
theorem handleLogin_nouser (vfy : String → String → Bool)
    (sign : String → String → String) (st : Store) (u p : String)
    (hu : (u == "") = false) (hp : (p == "") = false)
    (hsu : sanitizeUsername u = false) (hsp : sanitizePassword p = false)
    (hmiss : sget st (unameKeyOf u) = none) :
    handleLogin vfy sign st u p =
      (mkResp 401 "ERR_INVALID_CREDENTIALS" "❌ Invalid username or password"
        .empty [.fieldsReceivedLogin u, .usernameNotFound], st, []) := by
  simp only [handleLogin, hu, hp, hsu, hsp, Bool.or_self, Bool.or_false,
    Bool.false_or, if_false, hmiss]
  simp

/-- Login reaching an existing account whose credential check fails: the
invalid-credentials response, no store change, no writes. -/
theorem handleLogin_mismatch (vfy : String → String → Bool)
    (sign : String → String → String) (st : Store)
    (u p uid au ap ae ab : String)
    (hu : (u == "") = false) (hp : (p == "") = false)
    (hsu : sanitizeUsername u = false) (hsp : sanitizePassword p = false)
    (hidx : sget st (unameKeyOf u) = some (Obj.index uid))
    (hacct : sget st (acctKey uid) = some (Obj.account au ap ae ab))
    (hbad : (au == u && vfy p ap) = false) :
    handleLogin vfy sign st u p =
      (mkResp 401 "ERR_INVALID_CREDENTIALS" "❌ Invalid username or password"
        .empty [.fieldsReceivedLogin u, .passwordMismatch], st, []) := by
  simp only [handleLogin, hu, hp, hsu, hsp, Bool.or_self, Bool.or_false,
    Bool.false_or, if_false, hidx, idxUserId, hacct, hbad]
  simp

/-- Successful login whose self-heal finds the email index entry missing:
exactly that entry is written back. -/
theorem handleLogin_heals_email (vfy : String → String → Bool)
    (sign : String → String → String) (st : Store)
    (u p uid au ap ae ab : String) (cs : List (String × String))
    (hu : (u == "") = false) (hp : (p == "") = false)
    (hsu : sanitizeUsername u = false) (hsp : sanitizePassword p = false)
    (hidx : sget st (unameKeyOf u) = some (Obj.index uid))
    (hacct : sget st (acctKey uid) = some (Obj.account au ap ae ab))
    (hok : (au == u && vfy p ap) = true)
    (hne : sget st (emailKeyOf ae) = none)
    (hcfg : sget (sput st (emailKeyOf ae) (Obj.index uid)) (cfgKey uid) =
      some (Obj.config cs)) :
    handleLogin vfy sign st u p =
      (mkResp 200 "SUCCESS_LOGIN" "✅ Login successful"
        (.loginData (sign uid u) (some (Obj.config cs)) au ae ab)
        [.fieldsReceivedLogin u, .missingEmailIdxRecreated],
       sput st (emailKeyOf ae) (Obj.index uid), [emailKeyOf ae]) := by
  simp only [handleLogin, hu, hp, hsu, hsp, Bool.or_self, Bool.or_false,
    Bool.false_or, if_false, hidx, idxUserId, hacct, hok,
    Option.isNone_some, Option.isNone_none, if_true, if_false, hne,
    objParses]
  simp only [show (false = true) = False by simp, if_false]
  rw [hcfg]
  simp

/-- Successful login when both index entries are present: no writes, store
unchanged. -/
theorem handleLogin_no_heal (vfy : String → String → Bool)
    (sign : String → String → String) (st : Store)
    (u p uid au ap ae ab : String) (v : Obj) (cs : List (String × String))
    (hu : (u == "") = false) (hp : (p == "") = false)
    (hsu : sanitizeUsername u = false) (hsp : sanitizePassword p = false)
    (hidx : sget st (unameKeyOf u) = some (Obj.index uid))
    (hacct : sget st (acctKey uid) = some (Obj.account au ap ae ab))
    (hok : (au == u && vfy p ap) = true)
    (hem : sget st (emailKeyOf ae) = some v)
    (hcfg : sget st (cfgKey uid) = some (Obj.config cs)) :
    handleLogin vfy sign st u p =
      (mkResp 200 "SUCCESS_LOGIN" "✅ Login successful"
        (.loginData (sign uid u) (some (Obj.config cs)) au ae ab)
        [.fieldsReceivedLogin u], st, []) := by
  simp only [handleLogin, hu, hp, hsu, hsp, Bool.or_self, Bool.or_false,
    Bool.false_or, if_false, hidx, idxUserId, hacct, hok,
    Option.isNone_some, Option.isNone_none, if_true, if_false, hem,
    objParses]
  simp only [show (false = true) = False by simp, if_false]
  rw [hcfg]
  simp

/-- C2 amended: authenticating an unknown username and authenticating an
existing username with a wrong password return responses that agree on
status code, status string, message, and data, and neither changes the
store; the responses differ only in the diagnostic logs array that
`jsonResponse` embeds in the body. -/
theorem invalid_credentials_responses_agree_on_fields
    (vfy : String → String → Bool) (sign : String → String → String)
    (st : Store) (u1 p1 u2 p2 uid au ap ae ab : String)
    (h1u : (u1 == "") = false) (h1p : (p1 == "") = false)
    (h1su : sanitizeUsername u1 = false)
    (h1sp : sanitizePassword p1 = false)
    (hmiss : sget st (unameKeyOf u1) = none)
    (h2u : (u2 == "") = false) (h2p : (p2 == "") = false)
    (h2su : sanitizeUsername u2 = false)
    (h2sp : sanitizePassword p2 = false)
    (hidx : sget st (unameKeyOf u2) = some (Obj.index uid))
    (hacct : sget st (acctKey uid) = some (Obj.account au ap ae ab))
    (hbad : (au == u2 && vfy p2 ap) = false) :
    (handleLogin vfy sign st u1 p1).1.statusCode =
      (handleLogin vfy sign st u2 p2).1.statusCode ∧
    (handleLogin vfy sign st u1 p1).1.status =
      (handleLogin vfy sign st u2 p2).1.status ∧
    (handleLogin vfy sign st u1 p1).1.message =
      (handleLogin vfy sign st u2 p2).1.message ∧
    (handleLogin vfy sign st u1 p1).1.data =
      (handleLogin vfy sign st u2 p2).1.data ∧
    (handleLogin vfy sign st u1 p1).2 = (st, []) ∧
    (handleLogin vfy sign st u2 p2).2 = (st, []) := by
  rw [handleLogin_nouser vfy sign st u1 p1 h1u h1p h1su h1sp hmiss,
    handleLogin_mismatch vfy sign st u2 p2 uid au ap ae ab h2u h2p h2su
      h2sp hidx hacct hbad]
  exact ⟨rfl, rfl, rfl, rfl, rfl, rfl⟩

/-- Witness for `invalid_credentials_responses_agree_on_fields` on the
concretely created store. -/
theorem invalid_credentials_responses_agree_on_fields_witness :
    (handleLogin wVfy wSign wCreated "nouser" "anything").1.statusCode =
      (handleLogin wVfy wSign wCreated "alice" "wrongpw").1.statusCode ∧
    (handleLogin wVfy wSign wCreated "nouser" "anything").1.status =
      (handleLogin wVfy wSign wCreated "alice" "wrongpw").1.status ∧
    (handleLogin wVfy wSign wCreated "nouser" "anything").1.message =
      (handleLogin wVfy wSign wCreated "alice" "wrongpw").1.message ∧
    (handleLogin wVfy wSign wCreated "nouser" "anything").1.data =
      (handleLogin wVfy wSign wCreated "alice" "wrongpw").1.data ∧
    (handleLogin wVfy wSign wCreated "nouser" "anything").2 =
      (wCreated, []) ∧
    (handleLogin wVfy wSign wCreated "alice" "wrongpw").2 =
      (wCreated, []) :=
  invalid_credentials_responses_agree_on_fields wVfy wSign wCreated
    "nouser" "anything" "alice" "wrongpw" "u1" "alice" "h|pw1" "a@x.com"
    "2000-01-01" (by decide) (by decide) (by decide) (by decide)
    (by decide) (by decide) (by decide) (by decide) (by decide)
    (by decide) (by decide) (by decide)

/-- C2 counterexample: both calls return 401 `ERR_INVALID_CREDENTIALS`,
yet the two returned responses are not equal — the logs embedded in the
body distinguish the unknown-username case from the wrong-password
case. -/
theorem invalid_credentials_responses_distinguishable_by_logs :
    (handleLogin wVfy wSign wCreated "nouser" "anything").1.statusCode =
      401 ∧
    (handleLogin wVfy wSign wCreated "alice" "wrongpw").1.statusCode =
      401 ∧
    (handleLogin wVfy wSign wCreated "nouser" "anything").1.status =
      "ERR_INVALID_CREDENTIALS" ∧
    (handleLogin wVfy wSign wCreated "alice" "wrongpw").1.status =
      "ERR_INVALID_CREDENTIALS" ∧
    (handleLogin wVfy wSign wCreated "nouser" "anything").1 ≠
      (handleLogin wVfy wSign wCreated "alice" "wrongpw").1 := by
  decide

/-- C7: the `ensure` step of Authenticate's self-heal writes an index
entry only at a key that is absent; every key present in the store keeps
its exact stored blob across the whole login — in particular an existing
index entry pointing at a different account id is left untouched. -/
theorem login_selfheal_never_overwrites
    (vfy : String → String → Bool) (sign : String → String → String)
    (st : Store) (u p : String) :
    (∀ k ∈ (handleLogin vfy sign st u p).2.2, sget st k = none) ∧
    (∀ k v, sget st k = some v →
      sget (handleLogin vfy sign st u p).2.1 k = some v) := by
  constructor
  · intro k hk
    simp only [handleLogin] at hk
    split at hk
    · simp at hk
    · split at hk
      · simp at hk
      · split at hk
        · simp at hk
        · simp at hk
        · split at hk
          · simp at hk
          · split at hk
            · simp at hk
            · simp at hk
            · split at hk
              · rename_i au ap ae ab heq hok
                rcases (by simpa using hk :
                    (sget st (unameKeyOf u) = none ∧ k = unameKeyOf u) ∨
                    (sget st (emailKeyOf ae) = none ∧ k = emailKeyOf ae))
                  with ⟨hn, rfl⟩ | ⟨hn, rfl⟩ <;> exact hn
              · simp at hk
            · simp at hk
  · intro k v hv
    simp only [handleLogin]
    split
    · exact hv
    · split
      · exact hv
      · split
        · exact hv
        · exact hv
        · split
          · exact hv
          · split
            · exact hv
            · exact hv
            · split
              · simp only []
                split
                · next hE =>
                    rw [sget_sput_ne]
                    · split
                      · next hU =>
                          rw [sget_sput_ne]
                          · exact hv
                          · intro he
                            rw [he, Option.isNone_iff_eq_none.1 hU] at hv
                            exact Option.noConfusion hv
                      · exact hv
                    · intro he
                      rw [he, Option.isNone_iff_eq_none.1 hE] at hv
                      exact Option.noConfusion hv
                · split
                  · next hU =>
                      rw [sget_sput_ne]
                      · exact hv
                      · intro he
                        rw [he, Option.isNone_iff_eq_none.1 hU] at hv
                        exact Option.noConfusion hv
                  · exact hv
              · exact hv
            · exact hv

/-- Witness for `login_selfheal_never_overwrites`: a store whose by-email
entry points at a different account id `OTHER`; after a successful login
the entry still holds `OTHER`. -/
theorem login_selfheal_never_overwrites_witness :
    sget (handleLogin wVfy wSign
        [(acctKey "u1", Obj.account "alice" "h|pw1" "a@x.com" "2000-01-01"),
         (cfgKey "u1", Obj.config defaultConfig),
         (unameKeyOf "alice", Obj.index "u1"),
         (emailKeyOf "a@x.com", Obj.index "OTHER")]
        "alice" "pw1").2.1 (emailKeyOf "a@x.com") =
      some (Obj.index "OTHER") :=
  (login_selfheal_never_overwrites wVfy wSign
    [(acctKey "u1", Obj.account "alice" "h|pw1" "a@x.com" "2000-01-01"),
     (cfgKey "u1", Obj.config defaultConfig),
     (unameKeyOf "alice", Obj.index "u1"),
     (emailKeyOf "a@x.com", Obj.index "OTHER")]
    "alice" "pw1").2 (emailKeyOf "a@x.com") (Obj.index "OTHER") (by decide)

/-- C1 counterexample: after a successful creation, deleting the
by-username index entry and calling Authenticate once with the correct
credentials does not recreate the missing entry — the login fails with the
invalid-credentials response, performs no index writes, and leaves the
entry absent. -/
theorem login_no_selfheal_for_missing_username_index :
    (handleCreateAccount wHash 1700000000000 "u1" [] []
        "alice" "pw1" "a@x.com" "2000-01-01").1.statusCode = 200 ∧
    (handleLogin wVfy wSign (sdel wCreated (unameKeyOf "alice"))
        "alice" "pw1").1.statusCode = 401 ∧
    (handleLogin wVfy wSign (sdel wCreated (unameKeyOf "alice"))
        "alice" "pw1").1.status = "ERR_INVALID_CREDENTIALS" ∧
    (handleLogin wVfy wSign (sdel wCreated (unameKeyOf "alice"))
        "alice" "pw1").2.2 = [] ∧
    sget (handleLogin wVfy wSign (sdel wCreated (unameKeyOf "alice"))
        "alice" "pw1").2.1 (unameKeyOf "alice") = none := by
  decide

/-- C1 amended: for an account created successfully, deleting the by-email
index entry and calling Authenticate once with the correct credentials
recreates precisely that entry pointing at the original account id, and a
second Authenticate performs zero additional index writes; deleting the
by-username entry instead makes Authenticate fail with the
invalid-credentials response and recreates nothing.  The four inequations
say the fresh account id does not collide with the index namespaces. -/
theorem login_selfheal_after_single_index_deletion
    (bhash : String → String) (vfy : String → String → Bool)
    (sign : String → String → String) (now : Int) (uid : String)
    (st : Store) (u p e b : String)
    (hu : (u == "") = false) (hp : (p == "") = false)
    (he : (e == "") = false) (hb : (b == "") = false)
    (hsu : sanitizeUsername u = false) (hsp : sanitizePassword p = false)
    (hse : sanitizeEmail e = false) (hsb : sanitizeBirthday b = false)
    (hage : ¬ computeAge now b < 10)
    (havU : sget st (unameKeyOf u) = none)
    (havE : sget st (emailKeyOf e) = none)
    (hvfy : vfy p (bhash p) = true)
    (hk1 : acctKey uid ≠ unameKeyOf u) (hk2 : acctKey uid ≠ emailKeyOf e)
    (hk3 : cfgKey uid ≠ unameKeyOf u) (hk4 : cfgKey uid ≠ emailKeyOf e) :
    (handleCreateAccount bhash now uid [] st u p e b).1.statusCode = 200 ∧
    handleLogin vfy sign
        (sdel (handleCreateAccount bhash now uid [] st u p e b).2
          (emailKeyOf e)) u p =
      (mkResp 200 "SUCCESS_LOGIN" "✅ Login successful"
        (.loginData (sign uid u) (some (Obj.config defaultConfig)) u e b)
        [.fieldsReceivedLogin u, .missingEmailIdxRecreated],
       sput (sdel (handleCreateAccount bhash now uid [] st u p e b).2
         (emailKeyOf e)) (emailKeyOf e) (Obj.index uid),
       [emailKeyOf e]) ∧
    sget (sput (sdel (handleCreateAccount bhash now uid [] st u p e b).2
        (emailKeyOf e)) (emailKeyOf e) (Obj.index uid)) (emailKeyOf e) =
      some (Obj.index uid) ∧
    (∀ k, k ≠ emailKeyOf e →
      sget (sput (sdel (handleCreateAccount bhash now uid [] st u p e b).2
          (emailKeyOf e)) (emailKeyOf e) (Obj.index uid)) k =
        sget (sdel (handleCreateAccount bhash now uid [] st u p e b).2
          (emailKeyOf e)) k) ∧
    handleLogin vfy sign
        (sput (sdel (handleCreateAccount bhash now uid [] st u p e b).2
          (emailKeyOf e)) (emailKeyOf e) (Obj.index uid)) u p =
      (mkResp 200 "SUCCESS_LOGIN" "✅ Login successful"
        (.loginData (sign uid u) (some (Obj.config defaultConfig)) u e b)
        [.fieldsReceivedLogin u],
       sput (sdel (handleCreateAccount bhash now uid [] st u p e b).2
         (emailKeyOf e)) (emailKeyOf e) (Obj.index uid), []) ∧
    handleLogin vfy sign
        (sdel (handleCreateAccount bhash now uid [] st u p e b).2
          (unameKeyOf u)) u p =
      (mkResp 401 "ERR_INVALID_CREDENTIALS"
        "❌ Invalid username or password" .empty
        [.fieldsReceivedLogin u, .usernameNotFound],
       sdel (handleCreateAccount bhash now uid [] st u p e b).2
         (unameKeyOf u), []) := by
  have hsucc := handleCreateAccount_success bhash now uid st u p e b hu hp
    he hb hsu hsp hse hsb hage havU havE
  rw [hsucc]
  have hne_ue := unameKeyOf_ne_emailKeyOf u e
  have hne_cfg := acctKey_ne_cfgKey uid
  have hA : sget (sdel (sput (sput (sput (sput st (acctKey uid)
      (Obj.account u (bhash p) e b)) (cfgKey uid)
      (Obj.config defaultConfig)) (unameKeyOf u) (Obj.index uid))
      (emailKeyOf e) (Obj.index uid)) (emailKeyOf e)) (unameKeyOf u) =
      some (Obj.index uid) := by
    rw [sget_sdel_ne _ _ _ hne_ue, sget_sput_ne _ _ _ _ hne_ue,
      sget_sput_self]
  have hB : sget (sdel (sput (sput (sput (sput st (acctKey uid)
      (Obj.account u (bhash p) e b)) (cfgKey uid)
      (Obj.config defaultConfig)) (unameKeyOf u) (Obj.index uid))
      (emailKeyOf e) (Obj.index uid)) (emailKeyOf e)) (acctKey uid) =
      some (Obj.account u (bhash p) e b) := by
    rw [sget_sdel_ne _ _ _ hk2, sget_sput_ne _ _ _ _ hk2,
      sget_sput_ne _ _ _ _ hk1, sget_sput_ne _ _ _ _ hne_cfg,
      sget_sput_self]
  have hok : (u == u && vfy p (bhash p)) = true := by simp [hvfy]
  have hE0 : sget (sdel (sput (sput (sput (sput st (acctKey uid)
      (Obj.account u (bhash p) e b)) (cfgKey uid)
      (Obj.config defaultConfig)) (unameKeyOf u) (Obj.index uid))
      (emailKeyOf e) (Obj.index uid)) (emailKeyOf e)) (emailKeyOf e) =
      none := sget_sdel_self _ _
  have hcfg : sget (sput (sdel (sput (sput (sput (sput st (acctKey uid)
      (Obj.account u (bhash p) e b)) (cfgKey uid)
      (Obj.config defaultConfig)) (unameKeyOf u) (Obj.index uid))
      (emailKeyOf e) (Obj.index uid)) (emailKeyOf e)) (emailKeyOf e)
      (Obj.index uid)) (cfgKey uid) = some (Obj.config defaultConfig) := by
    rw [sget_sput_ne _ _ _ _ hk4, sget_sdel_ne _ _ _ hk4,
      sget_sput_ne _ _ _ _ hk4, sget_sput_ne _ _ _ _ hk3, sget_sput_self]
  refine ⟨rfl, ?_, sget_sput_self _ _ _, ?_, ?_, ?_⟩
  · exact handleLogin_heals_email vfy sign _ u p uid u (bhash p) e b
      defaultConfig hu hp hsu hsp hA hB hok hE0 hcfg
  · intro k hkne
    exact sget_sput_ne _ _ _ _ hkne
  · refine handleLogin_no_heal vfy sign _ u p uid u (bhash p) e b
      (Obj.index uid) defaultConfig hu hp hsu hsp ?_ ?_ hok ?_ hcfg
    · rw [sget_sput_ne _ _ _ _ hne_ue]
      exact hA
    · rw [sget_sput_ne _ _ _ _ hk2]
      exact hB
    · exact sget_sput_self _ _ _
  · exact handleLogin_nouser vfy sign _ u p hu hp hsu hsp
      (sget_sdel_self _ _)

/-- Witness for `login_selfheal_after_single_index_deletion` at a concrete
account. -/
theorem login_selfheal_after_single_index_deletion_witness :
    (handleCreateAccount wHash 1700000000000 "u1" [] []
        "alice" "pw1" "a@x.com" "2000-01-01").1.statusCode = 200 ∧
    handleLogin wVfy wSign
        (sdel (handleCreateAccount wHash 1700000000000 "u1" [] []
          "alice" "pw1" "a@x.com" "2000-01-01").2
          (emailKeyOf "a@x.com")) "alice" "pw1" =
      (mkResp 200 "SUCCESS_LOGIN" "✅ Login successful"
        (.loginData (wSign "u1" "alice") (some (Obj.config defaultConfig))
          "alice" "a@x.com" "2000-01-01")
        [.fieldsReceivedLogin "alice", .missingEmailIdxRecreated],
       sput (sdel (handleCreateAccount wHash 1700000000000 "u1" [] []
         "alice" "pw1" "a@x.com" "2000-01-01").2
         (emailKeyOf "a@x.com")) (emailKeyOf "a@x.com") (Obj.index "u1"),
       [emailKeyOf "a@x.com"]) ∧
    sget (sput (sdel (handleCreateAccount wHash 1700000000000 "u1" [] []
        "alice" "pw1" "a@x.com" "2000-01-01").2
        (emailKeyOf "a@x.com")) (emailKeyOf "a@x.com") (Obj.index "u1"))
        (emailKeyOf "a@x.com") = some (Obj.index "u1") ∧
    (∀ k, k ≠ emailKeyOf "a@x.com" →
      sget (sput (sdel (handleCreateAccount wHash 1700000000000 "u1" [] []
          "alice" "pw1" "a@x.com" "2000-01-01").2
          (emailKeyOf "a@x.com")) (emailKeyOf "a@x.com") (Obj.index "u1"))
          k =
        sget (sdel (handleCreateAccount wHash 1700000000000 "u1" [] []
          "alice" "pw1" "a@x.com" "2000-01-01").2
          (emailKeyOf "a@x.com")) k) ∧
    handleLogin wVfy wSign
        (sput (sdel (handleCreateAccount wHash 1700000000000 "u1" [] []
          "alice" "pw1" "a@x.com" "2000-01-01").2
          (emailKeyOf "a@x.com")) (emailKeyOf "a@x.com") (Obj.index "u1"))
        "alice" "pw1" =
      (mkResp 200 "SUCCESS_LOGIN" "✅ Login successful"
        (.loginData (wSign "u1" "alice") (some (Obj.config defaultConfig))
          "alice" "a@x.com" "2000-01-01")
        [.fieldsReceivedLogin "alice"],
       sput (sdel (handleCreateAccount wHash 1700000000000 "u1" [] []
         "alice" "pw1" "a@x.com" "2000-01-01").2
         (emailKeyOf "a@x.com")) (emailKeyOf "a@x.com") (Obj.index "u1"),
       []) ∧
    handleLogin wVfy wSign
        (sdel (handleCreateAccount wHash 1700000000000 "u1" [] []
          "alice" "pw1" "a@x.com" "2000-01-01").2
          (unameKeyOf "alice")) "alice" "pw1" =
      (mkResp 401 "ERR_INVALID_CREDENTIALS"
        "❌ Invalid username or password" .empty
        [.fieldsReceivedLogin "alice", .usernameNotFound],
       sdel (handleCreateAccount wHash 1700000000000 "u1" [] []
         "alice" "pw1" "a@x.com" "2000-01-01").2
         (unameKeyOf "alice"), []) :=
  login_selfheal_after_single_index_deletion wHash wVfy wSign
    1700000000000 "u1" [] "alice" "pw1" "a@x.com" "2000-01-01"
    (by decide) (by decide) (by decide) (by decide) (by decide)
    (by decide) (by decide) (by decide) (by decide) (by decide)
    (by decide) (by decide) (by decide) (by decide) (by decide)
    (by decide)

/-- C9: over a store holding 5 account records and a listing returning
pages of at most 2 keys, the continuation-token loop visits exactly the
`users/`-prefixed account keys — all 5, each exactly once — wherever the
page boundaries fall. -/
theorem pagination_visits_all_account_keys_once
    (st : Store) (pages : List (List String))
    (hnd : (keysOf st).Nodup)
    (hpj : pages.flatten.Nodup)
    (hmem : ∀ k, k ∈ pages.flatten ↔
      k ∈ keysOf st ∧ strHasPre "users/" k = true)
    (hsize : ∀ pg ∈ pages, pg.length ≤ 2)
    (hfive : ((keysOf st).filter (fun k => strHasPre "users/" k &&
      strHasSuf "account.json" k)).length = 5) :
    (∀ k, k ∈ visitedAccountKeys pages ↔
      (k ∈ keysOf st ∧ strHasPre "users/" k = true ∧
        strHasSuf "account.json" k = true)) ∧
    (visitedAccountKeys pages).Nodup ∧
    (visitedAccountKeys pages).length = 5 := by
  have hv : visitedAccountKeys pages =
      pages.flatten.filter (fun k => strHasSuf "account.json" k) := by
    rw [visitedAccountKeys, List.filter_flatten]
  have hmem' : ∀ k, k ∈ visitedAccountKeys pages ↔
      (k ∈ keysOf st ∧ strHasPre "users/" k = true ∧
        strHasSuf "account.json" k = true) := by
    intro k
    rw [hv, List.mem_filter, hmem k]
    tauto
  refine ⟨hmem', by rw [hv]; exact hpj.filter _, ?_⟩
  have hperm : (visitedAccountKeys pages).Perm
      ((keysOf st).filter (fun k => strHasPre "users/" k &&
        strHasSuf "account.json" k)) := by
    refine (List.perm_ext_iff_of_nodup
      (by rw [hv]; exact hpj.filter _) (hnd.filter _)).2 ?_
    intro k
    rw [hmem' k, List.mem_filter, Bool.and_eq_true]
  rw [hperm.length_eq, hfive]

/-- Witness for `pagination_visits_all_account_keys_once` on a concrete
5-account store and a 2-2-1 page decomposition. -/
theorem pagination_visits_all_account_keys_once_witness :
    (visitedAccountKeys wPages5).Nodup ∧
    (visitedAccountKeys wPages5).length = 5 := by
  have hmem : ∀ k, k ∈ wPages5.flatten ↔
      k ∈ keysOf wStore5 ∧ strHasPre "users/" k = true := by
    intro k
    constructor
    · intro hk
      rcases (by simpa [wPages5] using hk) with rfl | rfl | rfl | rfl | rfl
        <;> exact ⟨by decide, by decide⟩
    · rintro ⟨hk, -⟩
      simpa [wPages5] using (by simpa [wStore5, keysOf] using hk :
        k = acctKey "a" ∨ k = acctKey "b" ∨ k = acctKey "c" ∨
        k = acctKey "d" ∨ k = acctKey "e")
  exact ⟨(pagination_visits_all_account_keys_once wStore5 wPages5
      (by decide) (by decide) hmem (by decide) (by decide)).2.1,
    (pagination_visits_all_account_keys_once wStore5 wPages5
      (by decide) (by decide) hmem (by decide) (by decide)).2.2⟩

theorem ne_of_sget_none_some {st : Store} {k0 k : String} {v : Obj}
    (h0 : sget st k0 = none) (hv : sget st k = some v) : k ≠ k0 := by
  intro he
  rw [he, h0] at hv
  exact Option.noConfusion hv

/-- Processing one key in the additive pass never disturbs an existing
entry: the two conditional writes target only absent keys. -/
theorem processAcctAdd_preserves (st : Store) (k0 : String) :
    ∀ k v, sget st k = some v → sget (processAcctAdd st k0).1 k = some v := by
  intro k v hv
  unfold processAcctAdd
  split
  · rename_i u pw e b heq
    simp only []
    cases hU : (sget st (unameKey (lowerStr u))).isNone <;>
      cases hE : (sget st (emailKey (lowerStr e))).isNone <;>
      simp only [hU, hE, Bool.false_eq_true, eq_self_iff_true, if_false,
        if_true]
    · exact hv
    · rw [sget_sput_ne _ _ _ _
        (ne_of_sget_none_some (Option.isNone_iff_eq_none.1 hE) hv)]
      exact hv
    · rw [sget_sput_ne _ _ _ _
        (ne_of_sget_none_some (Option.isNone_iff_eq_none.1 hU) hv)]
      exact hv
    · rw [sget_sput_ne _ _ _ _
          (ne_of_sget_none_some (Option.isNone_iff_eq_none.1 hE) hv),
        sget_sput_ne _ _ _ _
          (ne_of_sget_none_some (Option.isNone_iff_eq_none.1 hU) hv)]
      exact hv
  · exact hv

/-- Processing one key creates only index entries at previously absent
keys. -/
theorem processAcctAdd_new (st : Store) (k0 : String) :
    ∀ k, sget st k = none →
      sget (processAcctAdd st k0).1 k = none ∨
      ∃ uid, sget (processAcctAdd st k0).1 k = some (Obj.index uid) := by
  intro k hk
  unfold processAcctAdd
  split
  · rename_i u pw e b heq
    simp only []
    cases hU : (sget st (unameKey (lowerStr u))).isNone <;>
      cases hE : (sget st (emailKey (lowerStr e))).isNone <;>
      simp only [hU, hE, Bool.false_eq_true, eq_self_iff_true, if_false,
        if_true]
    · exact Or.inl hk
    · by_cases hkE : k = emailKey (lowerStr e)
      · subst hkE
        exact Or.inr ⟨uidOf k0, sget_sput_self _ _ _⟩
      · rw [sget_sput_ne _ _ _ _ hkE]
        exact Or.inl hk
    · by_cases hkU : k = unameKey (lowerStr u)
      · subst hkU
        exact Or.inr ⟨uidOf k0, sget_sput_self _ _ _⟩
      · rw [sget_sput_ne _ _ _ _ hkU]
        exact Or.inl hk
    · by_cases hkE : k = emailKey (lowerStr e)
      · subst hkE
        exact Or.inr ⟨uidOf k0, sget_sput_self _ _ _⟩
      · rw [sget_sput_ne _ _ _ _ hkE]
        by_cases hkU : k = unameKey (lowerStr u)
        · subst hkU
          exact Or.inr ⟨uidOf k0, sget_sput_self _ _ _⟩
        · rw [sget_sput_ne _ _ _ _ hkU]
          exact Or.inl hk
  · exact Or.inl hk

/-- After processing a well-formed account key, both of its index keys
are present. -/
theorem processAcctAdd_self (st : Store) (k0 u pw e b : String)
    (heq : sget st k0 = some (Obj.account u pw e b)) :
    (sget (processAcctAdd st k0).1 (unameKey (lowerStr u))).isSome =
      true ∧
    (sget (processAcctAdd st k0).1 (emailKey (lowerStr e))).isSome =
      true := by
  unfold processAcctAdd
  rw [heq]
  simp only []
  have hne := unameKey_ne_emailKey (lowerStr u) (lowerStr e)
  cases hU : (sget st (unameKey (lowerStr u))).isNone <;>
    cases hE : (sget st (emailKey (lowerStr e))).isNone <;>
    simp only [hU, hE, Bool.false_eq_true, eq_self_iff_true, if_false,
      if_true]
  · exact ⟨(Option.isNone_eq_false_iff _).1 hU,
      (Option.isNone_eq_false_iff _).1 hE⟩
  · constructor
    · rw [sget_sput_ne _ _ _ _ hne]
      exact (Option.isNone_eq_false_iff _).1 hU
    · rw [sget_sput_self]
      rfl
  · constructor
    · rw [sget_sput_self]
      rfl
    · rw [sget_sput_ne _ _ _ _ (Ne.symm hne)]
      exact (Option.isNone_eq_false_iff _).1 hE
  · constructor
    · rw [sget_sput_ne _ _ _ _ hne, sget_sput_self]
      rfl
    · rw [sget_sput_self]
      rfl

/-- The additive inner loop never disturbs an existing entry. -/
theorem runAddKeys_preserves (ks : List String) :
    ∀ (st : Store) (r s : Nat) (k : String) (v : Obj),
      sget st k = some v → sget (runAddKeys st ks r s).1 k = some v := by
  induction ks with
  | nil => intro st r s k v hv; exact hv
  | cons k0 rest ih =>
    intro st r s k v hv
    have hstep := processAcctAdd_preserves st k0 k v hv
    rw [runAddKeys]
    cases hpa : processAcctAdd st k0 with
    | mk st' ob =>
      rw [hpa] at hstep
      cases ob with
      | none => exact ih st' r s k v hstep
      | some bb => cases bb with
        | true => exact ih st' (r + 1) s k v hstep
        | false => exact ih st' r (s + 1) k v hstep

/-- Any key the additive inner loop creates holds an index entry. -/
theorem runAddKeys_new (ks : List String) :
    ∀ (st : Store) (r s : Nat) (k : String), sget st k = none →
      sget (runAddKeys st ks r s).1 k = none ∨
      ∃ uid, sget (runAddKeys st ks r s).1 k = some (Obj.index uid) := by
  induction ks with
  | nil => intro st r s k hk; exact Or.inl hk
  | cons k0 rest ih =>
    intro st r s k hk
    have hstep := processAcctAdd_new st k0 k hk
    rw [runAddKeys]
    cases hpa : processAcctAdd st k0 with
    | mk st' ob =>
      rw [hpa] at hstep
      have hnext : ∀ r' s',
          sget (runAddKeys st' rest r' s').1 k = none ∨
          ∃ uid, sget (runAddKeys st' rest r' s').1 k =
            some (Obj.index uid) := by
        intro r' s'
        rcases hstep with h | ⟨uid, h⟩
        · exact ih st' r' s' k h
        · exact Or.inr ⟨uid, runAddKeys_preserves rest st' r' s' k _ h⟩
      cases ob with
      | none => exact hnext r s
      | some bb => cases bb with
        | true => exact hnext (r + 1) s
        | false => exact hnext r (s + 1)

/-- After the additive inner loop, every processed key holding a
well-formed account has both of its index keys present. -/
theorem runAddKeys_ensures (ks : List String) :
    ∀ (st : Store) (r s : Nat), ∀ k ∈ ks, ∀ u pw e b,
      sget (runAddKeys st ks r s).1 k = some (Obj.account u pw e b) →
      (sget (runAddKeys st ks r s).1 (unameKey (lowerStr u))).isSome =
        true ∧
      (sget (runAddKeys st ks r s).1 (emailKey (lowerStr e))).isSome =
        true := by
  induction ks with
  | nil => intro st r s k hk; exact absurd hk (List.not_mem_nil k)
  | cons k0 rest ih =>
    intro st r s k hk u pw e b hfin
    rcases List.mem_cons.1 hk with rfl | hkr
    · -- k is the head key
      cases hg : sget st k with
      | none =>
          rcases runAddKeys_new (k :: rest) st r s k hg with h | ⟨uid, h⟩
          · rw [hfin] at h; exact Option.noConfusion h
          · rw [hfin] at h
            exact Obj.noConfusion (Option.some.inj h)
      | some v =>
          have hpres := runAddKeys_preserves (k :: rest) st r s k v hg
          rw [hfin] at hpres
          have hv : v = Obj.account u pw e b := (Option.some.inj hpres).symm
          subst hv
          have hself := processAcctAdd_self st k u pw e b hg
          have hkeep := processAcctAdd_preserves st k
          rw [runAddKeys]
          cases hpa : processAcctAdd st k with
          | mk st' ob =>
            rw [hpa] at hself hkeep
            have hU := Option.isSome_iff_exists.1 hself.1
            have hE := Option.isSome_iff_exists.1 hself.2
            rcases hU with ⟨vU, hU⟩
            rcases hE with ⟨vE, hE⟩
            have hrun : ∀ r' s',
                (sget (runAddKeys st' rest r' s').1
                  (unameKey (lowerStr u))).isSome = true ∧
                (sget (runAddKeys st' rest r' s').1
                  (emailKey (lowerStr e))).isSome = true := by
              intro r' s'
              constructor
              · rw [runAddKeys_preserves rest st' r' s' _ vU hU]; rfl
              · rw [runAddKeys_preserves rest st' r' s' _ vE hE]; rfl
            cases ob with
            | none => exact hrun r s
            | some bb => cases bb with
              | true => exact hrun (r + 1) s
              | false => exact hrun r (s + 1)
    · -- k occurs later
      revert hfin
      rw [runAddKeys]
      cases hpa : processAcctAdd st k0 with
      | mk st' ob =>
        cases ob with
        | none => exact fun hfin => ih st' r s k hkr u pw e b hfin
        | some bb => cases bb with
          | true => exact fun hfin => ih st' (r + 1) s k hkr u pw e b hfin
          | false => exact fun hfin => ih st' r (s + 1) k hkr u pw e b hfin

/-- When every listed well-formed account already has both index entries,
the additive inner loop leaves the store unchanged and `rebuilt`
untouched. -/
theorem runAddKeys_skip_all (ks : List String) :
    ∀ (st : Store) (r s : Nat),
      (∀ k ∈ ks, ∀ u pw e b,
        sget st k = some (Obj.account u pw e b) →
        (sget st (unameKey (lowerStr u))).isSome = true ∧
        (sget st (emailKey (lowerStr e))).isSome = true) →
      (runAddKeys st ks r s).1 = st ∧ (runAddKeys st ks r s).2.1 = r := by
  induction ks with
  | nil => intro st r s _; exact ⟨rfl, rfl⟩
  | cons k0 rest ih =>
    intro st r s h
    rw [runAddKeys]
    cases hg : sget st k0 with
    | none =>
        have : processAcctAdd st k0 = (st, none) := by
          unfold processAcctAdd
          rw [hg]
        rw [this]
        exact ih st r s (fun k hk => h k (List.mem_cons_of_mem k0 hk))
    | some v =>
        cases v with
        | account u pw e b =>
            have hboth := h k0 (List.mem_cons_self k0 rest) u pw e b hg
            have hU : (sget st (unameKey (lowerStr u))).isNone = false := by
              rcases Option.isSome_iff_exists.1 hboth.1 with ⟨w, hw⟩
              rw [hw]; rfl
            have hE : (sget st (emailKey (lowerStr e))).isNone = false := by
              rcases Option.isSome_iff_exists.1 hboth.2 with ⟨w, hw⟩
              rw [hw]; rfl
            have : processAcctAdd st k0 = (st, some false) := by
              unfold processAcctAdd
              rw [hg]
              simp only [hU, hE, Bool.false_eq_true, if_false,
                Bool.or_self]
            rw [this]
            exact ih st r (s + 1)
              (fun k hk => h k (List.mem_cons_of_mem k0 hk))
        | config cs =>
            have : processAcctAdd st k0 = (st, none) := by
              unfold processAcctAdd
              rw [hg]
            rw [this]
            exact ih st r s (fun k hk => h k (List.mem_cons_of_mem k0 hk))
        | index uid =>
            have : processAcctAdd st k0 = (st, none) := by
              unfold processAcctAdd
              rw [hg]
            rw [this]
            exact ih st r s (fun k hk => h k (List.mem_cons_of_mem k0 hk))
        | raw sraw =>
            have : processAcctAdd st k0 = (st, none) := by
              unfold processAcctAdd
              rw [hg]
            rw [this]
            exact ih st r s (fun k hk => h k (List.mem_cons_of_mem k0 hk))

/-- The additive inner loop over a concatenation is the composition of
the loops. -/
theorem runAddKeys_append (a b : List String) :
    ∀ (st : Store) (r s : Nat),
      runAddKeys st (a ++ b) r s =
        runAddKeys (runAddKeys st a r s).1 b (runAddKeys st a r s).2.1
          (runAddKeys st a r s).2.2 := by
  induction a with
  | nil => intro st r s; rfl
  | cons k0 rest ih =>
    intro st r s
    rw [List.cons_append, runAddKeys]
    conv_rhs => rw [runAddKeys]
    cases hpa : processAcctAdd st k0 with
    | mk st' ob =>
      cases ob with
      | none => exact ih st' r s
      | some bb => cases bb with
        | true => exact ih st' (r + 1) s
        | false => exact ih st' r (s + 1)

/-- Page-by-page processing equals one pass over the visited account
keys. -/
theorem rebuildAdditive_eq_run (pages : List (List String)) :
    ∀ (acc : Store × Nat × Nat),
      pages.foldl
        (fun acc pg =>
          runAddKeys acc.1
            (pg.filter (fun k => strHasSuf "account.json" k)) acc.2.1
            acc.2.2) acc =
      runAddKeys acc.1 (visitedAccountKeys pages) acc.2.1 acc.2.2 := by
  induction pages with
  | nil => intro acc; rfl
  | cons pg rest ih =>
    intro acc
    rw [List.foldl_cons, ih]
    have hv : visitedAccountKeys (pg :: rest) =
        pg.filter (fun k => strHasSuf "account.json" k) ++
          visitedAccountKeys rest := by
      simp [visitedAccountKeys]
    rw [hv, runAddKeys_append]

/-- C6: running the additive rebuild twice with no intervening mutation
yields `rebuilt = 0` on the second run, for any listings that cover the
`users/` keys of the respective stores. -/
theorem additive_rebuild_idempotent (st : Store)
    (pages1 pages2 : List (List String))
    (h1 : ∀ k ∈ keysOf st, strHasPre "users/" k = true →
      k ∈ pages1.flatten)
    (h2 : ∀ k ∈ pages2.flatten, strHasPre "users/" k = true) :
    (rebuildAdditive (rebuildAdditive st pages1).1 pages2).2.1 = 0 := by
  have hrw1 : rebuildAdditive st pages1 =
      runAddKeys st (visitedAccountKeys pages1) 0 0 :=
    rebuildAdditive_eq_run pages1 (st, 0, 0)
  have hrw2 : ∀ st', rebuildAdditive st' pages2 =
      runAddKeys st' (visitedAccountKeys pages2) 0 0 :=
    fun st' => rebuildAdditive_eq_run pages2 (st', 0, 0)
  rw [hrw1, hrw2]
  refine (runAddKeys_skip_all (visitedAccountKeys pages2) _ 0 0 ?_).2
  intro k hk u pw e b hacc
  have hkmem : k ∈ pages2.flatten ∧
      strHasSuf "account.json" k = true := by
    have := hk
    rw [visitedAccountKeys, ← List.filter_flatten, List.mem_filter]
      at this
    exact this
  cases hg : sget st k with
  | none =>
      rcases runAddKeys_new (visitedAccountKeys pages1) st 0 0 k hg
        with h | ⟨uid, h⟩
      · rw [hacc] at h; exact Option.noConfusion h
      · rw [hacc] at h
        exact Obj.noConfusion (Option.some.inj h)
  | some v =>
      have hpres := runAddKeys_preserves (visitedAccountKeys pages1)
        st 0 0 k v hg
      rw [hacc] at hpres
      have hv : v = Obj.account u pw e b := (Option.some.inj hpres).symm
      subst hv
      have hk1 : k ∈ visitedAccountKeys pages1 := by
        rw [visitedAccountKeys, ← List.filter_flatten, List.mem_filter]
        exact ⟨h1 k (sget_some_mem_keysOf hg) (h2 k hkmem.1), hkmem.2⟩
      exact runAddKeys_ensures (visitedAccountKeys pages1) st 0 0 k hk1
        u pw e b hacc

/-- Witness for `additive_rebuild_idempotent` on the concretely created
store. -/
theorem additive_rebuild_idempotent_witness :
    (rebuildAdditive (rebuildAdditive wCreated wPagesC).1
      wPagesC).2.1 = 0 :=
  additive_rebuild_idempotent wCreated wPagesC wPagesC (by decide)
    (by decide)

theorem sget_deleteBatch (st : Store) (ks : List String) (k : String) :
    sget (deleteBatch st ks) k = if k ∈ ks then none else sget st k := by
  induction st with
  | nil => simp [deleteBatch, sget]
  | cons a t ih =>
    by_cases hak : a.1 ∈ ks
    · have hdrop : deleteBatch (a :: t) ks = deleteBatch t ks := by
        simp [deleteBatch, List.filter, hak]
      rw [hdrop, ih]
      by_cases hk : k ∈ ks
      · simp [hk]
      · have hne : (a.1 == k) = false := by
          simp [beq_iff_eq]
          intro he
          exact hk (he ▸ hak)
        simp only [hk, if_false]
        simp [sget, List.find?, hne]
    · have hkeep : deleteBatch (a :: t) ks = a :: deleteBatch t ks := by
        simp [deleteBatch, List.filter, hak]
      rw [hkeep]
      by_cases hek : a.1 = k
      · have hb : (a.1 == k) = true := by simp [beq_iff_eq, hek]
        have hknot : k ∉ ks := fun hkk => hak (hek ▸ hkk)
        simp [sget, List.find?, hb, hknot]
      · have hb : (a.1 == k) = false := by simp [beq_iff_eq, hek]
        have h1 : sget (a :: deleteBatch t ks) k = sget (deleteBatch t ks) k := by
          simp [sget, List.find?, hb]
        have h2 : sget (a :: t) k = sget t k := by
          simp [sget, List.find?, hb]
        rw [h1, ih, h2]

theorem sget_clearLoop (pages : List (List String)) :
    ∀ (st : Store) (k : String),
      sget (clearLoop st pages) k =
        if k ∈ pages.flatten then none else sget st k := by
  induction pages with
  | nil => intro st k; simp [clearLoop]
  | cons pg rest ih =>
    intro st k
    have hstep : clearLoop st (pg :: rest) =
        clearLoop (deleteBatch st pg) rest := rfl
    rw [hstep, ih, sget_deleteBatch]
    by_cases h1 : k ∈ rest.flatten <;> by_cases h2 : k ∈ pg <;>
      simp [h1, h2]

theorem keysOf_filter_sublist (st : Store) (q : String × Obj → Bool) :
    (keysOf (st.filter q)).Sublist (keysOf st) := by
  unfold keysOf
  exact (List.filter_sublist st).map (fun p => p.1)

theorem keysOf_sput_nodup (st : Store) (k : String) (v : Obj)
    (h : (keysOf st).Nodup) : (keysOf (sput st k v)).Nodup := by
  have : keysOf (sput st k v) =
      k :: keysOf (st.filter (fun p => p.1 != k)) := rfl
  rw [this]
  refine List.nodup_cons.2 ⟨?_, ?_⟩
  · intro hk
    rcases List.mem_map.1 hk with ⟨p, hp, hpk⟩
    have hne := List.of_mem_filter hp
    simp only [bne_iff_ne, ne_eq] at hne
    exact hne hpk
  · exact (keysOf_filter_sublist st _).nodup h

theorem keysOf_deleteBatch_nodup (st : Store) (ks : List String)
    (h : (keysOf st).Nodup) : (keysOf (deleteBatch st ks)).Nodup :=
  (keysOf_filter_sublist st _).nodup h

theorem keysOf_clearLoop_nodup (pages : List (List String)) :
    ∀ (st : Store), (keysOf st).Nodup →
      (keysOf (clearLoop st pages)).Nodup := by
  induction pages with
  | nil => intro st h; exact h
  | cons pg rest ih =>
    intro st h
    exact ih (deleteBatch st pg) (keysOf_deleteBatch_nodup st pg h)

theorem unameKey_inj {w w' : String} (h : unameKey w = unameKey w') :
    w = w' := by
  have hd := congrArg String.data h
  simp only [unameKey, String.data_append] at hd
  exact String.ext
    (List.append_cancel_left (List.append_cancel_right hd))

theorem emailKey_inj {w w' : String} (h : emailKey w = emailKey w') :
    w = w' := by
  have hd := congrArg String.data h
  simp only [emailKey, String.data_append] at hd
  exact String.ext
    (List.append_cancel_left (List.append_cancel_right hd))

theorem processAcctDestr_account (st : Store) (k0 u pw e b : String)
    (hg : sget st k0 = some (Obj.account u pw e b)) :
    processAcctDestr st k0 =
      (sput (sput st (unameKey (lowerStr u)) (Obj.index (uidOf k0)))
        (emailKey (lowerStr e)) (Obj.index (uidOf k0)), true) := by
  unfold processAcctDestr
  rw [hg]

theorem processAcctDestr_skip (st : Store) (k0 : String)
    (hg : ∀ u pw e b, sget st k0 ≠ some (Obj.account u pw e b)) :
    processAcctDestr st k0 = (st, false) := by
  unfold processAcctDestr
  cases hv : sget st k0 with
  | none => rfl
  | some v =>
      cases v with
      | account u pw e b => exact absurd hv (hg u pw e b)
      | config cs => rfl
      | index uid => rfl
      | raw s => rfl

theorem runDestrKeys_nodup (ks : List String) :
    ∀ (st : Store) (r : Nat), (keysOf st).Nodup →
      (keysOf (runDestrKeys st ks r).1).Nodup := by
  induction ks with
  | nil => intro st r h; exact h
  | cons k0 rest ih =>
    intro st r h
    rw [runDestrKeys]
    cases hg : sget st k0 with
    | some v =>
        cases v with
        | account u pw e b =>
            rw [processAcctDestr_account st k0 u pw e b hg]
            exact ih _ _
              (keysOf_sput_nodup _ _ _ (keysOf_sput_nodup _ _ _ h))
        | config cs =>
            have hpd : processAcctDestr st k0 = (st, false) := by
              unfold processAcctDestr
              rw [hg]
            rw [hpd]
            exact ih _ _ h
        | index uid =>
            have hpd : processAcctDestr st k0 = (st, false) := by
              unfold processAcctDestr
              rw [hg]
            rw [hpd]
            exact ih _ _ h
        | raw s =>
            have hpd : processAcctDestr st k0 = (st, false) := by
              unfold processAcctDestr
              rw [hg]
            rw [hpd]
            exact ih _ _ h
    | none =>
        have hpd : processAcctDestr st k0 = (st, false) := by
          unfold processAcctDestr
          rw [hg]
        rw [hpd]
        exact ih _ _ h

theorem runDestrKeys_append (a b : List String) :
    ∀ (st : Store) (r : Nat),
      runDestrKeys st (a ++ b) r =
        runDestrKeys (runDestrKeys st a r).1 b (runDestrKeys st a r).2 := by
  induction a with
  | nil => intro st r; rfl
  | cons k0 rest ih =>
    intro st r
    rw [List.cons_append, runDestrKeys]
    conv_rhs => rw [runDestrKeys]
    cases hpa : processAcctDestr st k0 with
    | mk st' bb =>
      cases bb with
      | true => exact ih st' (r + 1)
      | false => exact ih st' r

/-- Page-by-page destructive processing equals one pass over the visited
account keys. -/
theorem rebuildDestructive_eq_run (pages : List (List String)) :
    ∀ (acc : Store × Nat),
      pages.foldl
        (fun acc pg =>
          runDestrKeys acc.1
            (pg.filter (fun k => strHasSuf "account.json" k)) acc.2) acc =
      runDestrKeys acc.1 (visitedAccountKeys pages) acc.2 := by
  induction pages with
  | nil => intro acc; rfl
  | cons pg rest ih =>
    intro acc
    rw [List.foldl_cons, ih]
    have hv : visitedAccountKeys (pg :: rest) =
        pg.filter (fun k => strHasSuf "account.json" k) ++
          visitedAccountKeys rest := by
      simp [visitedAccountKeys]
    rw [hv, runDestrKeys_append]

theorem lastIdxWrite_nil (s0 : Store) (q : String) :
    lastIdxWrite s0 [] q = none := rfl

theorem idxWriteAt_account {s0 : Store} {k u pw e b : String}
    (hv : sget s0 k = some (Obj.account u pw e b)) (q : String) :
    idxWriteAt s0 q k =
      if q = unameKey (lowerStr u) ∨ q = emailKey (lowerStr e) then
        some (uidOf k)
      else none := by
  unfold idxWriteAt
  rw [hv]

theorem lastIdxWrite_cons (s0 : Store) (k0 : String) (ks : List String)
    (q : String) :
    lastIdxWrite s0 (k0 :: ks) q =
      (lastIdxWrite s0 ks q).or (idxWriteAt s0 q k0) := by
  unfold lastIdxWrite
  rw [List.reverse_cons, List.findSome?_append]
  congr 1
  rw [List.findSome?_cons]
  cases hf : idxWriteAt s0 q k0 with
  | none => rfl
  | some y => rfl

/-- Characterization of the destructive inner loop: at any key the final
store holds the index entry of the last processed account whose index
keys include it, and is otherwise untouched.  `s0` is the snapshot the
listed keys are read from; the loop's writes never touch a key outside
the two index namespaces, so reads of listed (non-index) keys agree with
`s0` throughout. -/
theorem runDestrKeys_sget (s0 : Store) (ks : List String) :
    ∀ (s : Store) (r : Nat),
      (∀ kk, strHasPre "users/by-username/" kk = false →
        strHasPre "users/by-email/" kk = false → sget s kk = sget s0 kk) →
      (∀ k ∈ ks, strHasPre "users/by-username/" k = false ∧
        strHasPre "users/by-email/" k = false) →
      ∀ q, sget (runDestrKeys s ks r).1 q =
        match lastIdxWrite s0 ks q with
        | some uid => some (Obj.index uid)
        | none => sget s q := by
  induction ks with
  | nil => intro s r _ _ q; rw [lastIdxWrite_nil]; rfl
  | cons k0 rest ih =>
    intro s r hagree hks q
    have hk0 := hks k0 (List.mem_cons_self k0 rest)
    have hs0 : sget s k0 = sget s0 k0 := hagree k0 hk0.1 hk0.2
    rw [runDestrKeys, lastIdxWrite_cons]
    cases hg : sget s0 k0 with
    | some v =>
        cases v with
        | account u pw e b =>
            have hpd := processAcctDestr_account s k0 u pw e b
              (hs0.trans hg)
            rw [hpd]
            have hagree2 : ∀ kk,
                strHasPre "users/by-username/" kk = false →
                strHasPre "users/by-email/" kk = false →
                sget (sput (sput s (unameKey (lowerStr u))
                  (Obj.index (uidOf k0))) (emailKey (lowerStr e))
                  (Obj.index (uidOf k0))) kk = sget s0 kk := by
              intro kk hkU hkE
              rw [sget_sput_ne _ _ _ _ (fun he => by
                  rw [he, emailKey_pre] at hkE
                  exact Bool.noConfusion hkE),
                sget_sput_ne _ _ _ _ (fun he => by
                  rw [he, unameKey_pre] at hkU
                  exact Bool.noConfusion hkU)]
              exact hagree kk hkU hkE
            rw [ih _ (r + 1) hagree2
              (fun k hk => hks k (List.mem_cons_of_mem k0 hk)) q]
            rw [idxWriteAt_account hg q]
            cases hlw : lastIdxWrite s0 rest q with
            | some uid => rfl
            | none =>
                simp only [Option.none_or]
                by_cases hqE : q = emailKey (lowerStr e)
                · subst hqE
                  rw [if_pos (Or.inr rfl), sget_sput_self]
                · by_cases hqU : q = unameKey (lowerStr u)
                  · subst hqU
                    rw [if_pos (Or.inl rfl),
                      sget_sput_ne _ _ _ _ hqE, sget_sput_self]
                  · rw [if_neg (by
                        rintro (h | h)
                        · exact hqU h
                        · exact hqE h)]
                    rw [sget_sput_ne _ _ _ _ hqE, sget_sput_ne _ _ _ _ hqU]
        | config cs =>
            have hpd : processAcctDestr s k0 = (s, false) := by
              unfold processAcctDestr
              rw [hs0.trans hg]
            have hwr : idxWriteAt s0 q k0 = none := by
              unfold idxWriteAt
              rw [hg]
            rw [hpd, ih s r hagree
              (fun k hk => hks k (List.mem_cons_of_mem k0 hk)) q, hwr,
              Option.or_none]
        | index uid =>
            have hpd : processAcctDestr s k0 = (s, false) := by
              unfold processAcctDestr
              rw [hs0.trans hg]
            have hwr : idxWriteAt s0 q k0 = none := by
              unfold idxWriteAt
              rw [hg]
            rw [hpd, ih s r hagree
              (fun k hk => hks k (List.mem_cons_of_mem k0 hk)) q, hwr,
              Option.or_none]
        | raw sr =>
            have hpd : processAcctDestr s k0 = (s, false) := by
              unfold processAcctDestr
              rw [hs0.trans hg]
            have hwr : idxWriteAt s0 q k0 = none := by
              unfold idxWriteAt
              rw [hg]
            rw [hpd, ih s r hagree
              (fun k hk => hks k (List.mem_cons_of_mem k0 hk)) q, hwr,
              Option.or_none]
    | none =>
        have hpd : processAcctDestr s k0 = (s, false) := by
          unfold processAcctDestr
          rw [hs0.trans hg]
        have hwr : idxWriteAt s0 q k0 = none := by
          unfold idxWriteAt
          rw [hg]
        rw [hpd, ih s r hagree
          (fun k hk => hks k (List.mem_cons_of_mem k0 hk)) q, hwr,
          Option.or_none]

theorem findSome?_eq_of_const {α : Type} {β : Type} {f : α → Option β}
    {c : β} :
    ∀ l : List α, (∀ x ∈ l, ∀ y, f x = some y → y = c) →
      (∃ x ∈ l, (f x).isSome = true) → l.findSome? f = some c := by
  intro l
  induction l with
  | nil =>
      intro _ hex
      rcases hex with ⟨x, hx, _⟩
      exact absurd hx (List.not_mem_nil x)
  | cons a t ih =>
    intro hall hex
    rw [List.findSome?_cons]
    cases hfa : f a with
    | some y =>
        rw [hall a (List.mem_cons_self a t) y hfa]
    | none =>
        refine ih (fun x hx => hall x (List.mem_cons_of_mem a hx)) ?_
        rcases hex with ⟨x, hx, hxs⟩
        rcases List.mem_cons.1 hx with rfl | hxt
        · rw [hfa] at hxs
          exact Bool.noConfusion hxs
        · exact ⟨x, hxt, hxs⟩

/-- Soundness of `lastIdxWrite`: a hit names a listed account key whose
record's index keys include the queried key. -/
theorem lastIdxWrite_some_elim {s0 : Store} {ks : List String}
    {q w : String} (h : lastIdxWrite s0 ks q = some w) :
    ∃ k ∈ ks, ∃ u pw e b,
      sget s0 k = some (Obj.account u pw e b) ∧
      (q = unameKey (lowerStr u) ∨ q = emailKey (lowerStr e)) ∧
      w = uidOf k := by
  rcases List.exists_of_findSome?_eq_some h with ⟨k, hk, hfk⟩
  refine ⟨k, List.mem_reverse.1 hk, ?_⟩
  unfold idxWriteAt at hfk
  cases hv : sget s0 k with
  | none =>
      rw [hv] at hfk
      exact Option.noConfusion hfk
  | some v =>
      rw [hv] at hfk
      cases v with
      | account u pw e b =>
          have hfk2 : (if q = unameKey (lowerStr u) ∨
              q = emailKey (lowerStr e) then some (uidOf k) else none) =
              some w := hfk
          by_cases hq : q = unameKey (lowerStr u) ∨
              q = emailKey (lowerStr e)
          · rw [if_pos hq] at hfk2
            exact ⟨u, pw, e, b, rfl, hq, (Option.some.inj hfk2).symm⟩
          · rw [if_neg hq] at hfk2
            exact Option.noConfusion hfk2
      | config cs =>
          exact Option.noConfusion
            (show (none : Option String) = some w from hfk)
      | index uid =>
          exact Option.noConfusion
            (show (none : Option String) = some w from hfk)
      | raw s =>
          exact Option.noConfusion
            (show (none : Option String) = some w from hfk)

/-- Completeness of `lastIdxWrite` for a by-username key: with pairwise
distinct normalized usernames, the net write at an account's username key
is its own id. -/
theorem lastIdxWrite_uname_complete (s0 : Store) (ks : List String)
    (accts : List AcctRec) (a : AcctRec) (ha : a ∈ accts)
    (hksS : ∀ k ∈ ks, ∃ c ∈ accts, k = acctKey c.uid)
    (hkmem : acctKey a.uid ∈ ks)
    (hacct0 : ∀ c ∈ accts, sget s0 (acctKey c.uid) =
      some (Obj.account c.uname c.pw c.email c.bday))
    (huid : ∀ c ∈ accts, uidOf (acctKey c.uid) = c.uid)
    (hinj : ∀ x ∈ accts, ∀ y ∈ accts,
      lowerStr x.uname = lowerStr y.uname → x = y) :
    lastIdxWrite s0 ks (unameKey (lowerStr a.uname)) = some a.uid := by
  unfold lastIdxWrite
  refine findSome?_eq_of_const _ ?_ ?_
  · intro x hx y hfy
    rcases hksS x (List.mem_reverse.1 hx) with ⟨c, hc, rfl⟩
    rw [idxWriteAt_account (hacct0 c hc)] at hfy
    by_cases hq : unameKey (lowerStr a.uname) =
        unameKey (lowerStr c.uname) ∨
        unameKey (lowerStr a.uname) = emailKey (lowerStr c.email)
    · rw [if_pos hq] at hfy
      rcases hq with hq | hq
      · have hac : a = c := hinj a ha c hc (unameKey_inj hq)
        rw [← Option.some.inj hfy, huid c hc, hac]
      · exact absurd hq (unameKey_ne_emailKey _ _)
    · rw [if_neg hq] at hfy
      exact Option.noConfusion hfy
  · refine ⟨acctKey a.uid, List.mem_reverse.2 hkmem, ?_⟩
    rw [idxWriteAt_account (hacct0 a ha), if_pos (Or.inl rfl)]
    rfl

/-- Completeness of `lastIdxWrite` for a by-email key. -/
theorem lastIdxWrite_email_complete (s0 : Store) (ks : List String)
    (accts : List AcctRec) (a : AcctRec) (ha : a ∈ accts)
    (hksS : ∀ k ∈ ks, ∃ c ∈ accts, k = acctKey c.uid)
    (hkmem : acctKey a.uid ∈ ks)
    (hacct0 : ∀ c ∈ accts, sget s0 (acctKey c.uid) =
      some (Obj.account c.uname c.pw c.email c.bday))
    (huid : ∀ c ∈ accts, uidOf (acctKey c.uid) = c.uid)
    (hinj : ∀ x ∈ accts, ∀ y ∈ accts,
      lowerStr x.email = lowerStr y.email → x = y) :
    lastIdxWrite s0 ks (emailKey (lowerStr a.email)) = some a.uid := by
  unfold lastIdxWrite
  refine findSome?_eq_of_const _ ?_ ?_
  · intro x hx y hfy
    rcases hksS x (List.mem_reverse.1 hx) with ⟨c, hc, rfl⟩
    rw [idxWriteAt_account (hacct0 c hc)] at hfy
    by_cases hq : emailKey (lowerStr a.email) =
        unameKey (lowerStr c.uname) ∨
        emailKey (lowerStr a.email) = emailKey (lowerStr c.email)
    · rw [if_pos hq] at hfy
      rcases hq with hq | hq
      · exact absurd hq.symm (unameKey_ne_emailKey _ _)
      · have hac : a = c := hinj a ha c hc (emailKey_inj hq)
        rw [← Option.some.inj hfy, huid c hc, hac]
    · rw [if_neg hq] at hfy
      exact Option.noConfusion hfy
  · refine ⟨acctKey a.uid, List.mem_reverse.2 hkmem, ?_⟩
    rw [idxWriteAt_account (hacct0 a ha), if_pos (Or.inr rfl)]
    rfl

theorem length_eq_one_of_mem_iff {α : Type} {l : List α} {x : α}
    (hnd : l.Nodup) (h : ∀ y, y ∈ l ↔ y = x) : l.length = 1 := by
  have hperm : l.Perm [x] :=
    (List.perm_ext_iff_of_nodup hnd (List.nodup_singleton x)).2
      (fun y => by rw [h y, List.mem_singleton])
  simpa using hperm.length_eq

theorem mem_entriesRef {st : Store} {pre uid k : String} :
    k ∈ entriesRef st pre uid ↔
      k ∈ keysOf st ∧ strHasPre pre k = true ∧
        sget st k = some (Obj.index uid) := by
  unfold entriesRef
  rw [List.mem_filter, Bool.and_eq_true, decide_eq_true_eq]

theorem entriesRef_nodup {st : Store} {pre uid : String}
    (h : (keysOf st).Nodup) : (entriesRef st pre uid).Nodup :=
  h.filter _

/-- Core of the destructive-rebuild post-condition, stated over the
cleared snapshot `s0` and the visited account-key list `ks`. -/
theorem destr_post_core (s0 : Store) (ks : List String)
    (accts : List AcctRec)
    (hnd0 : (keysOf s0).Nodup)
    (hnoidx0 : ∀ k, strHasPre "users/by-username/" k = true ∨
      strHasPre "users/by-email/" k = true → sget s0 k = none)
    (hksS : ∀ k ∈ ks, ∃ c ∈ accts, k = acctKey c.uid)
    (hksC : ∀ c ∈ accts, acctKey c.uid ∈ ks)
    (hacct0 : ∀ c ∈ accts, sget s0 (acctKey c.uid) =
      some (Obj.account c.uname c.pw c.email c.bday))
    (hshape : ∀ c ∈ accts,
      strHasPre "users/by-username/" (acctKey c.uid) = false ∧
      strHasPre "users/by-email/" (acctKey c.uid) = false)
    (huid : ∀ c ∈ accts, uidOf (acctKey c.uid) = c.uid)
    (hidsNd : (accts.map AcctRec.uid).Nodup)
    (hunNd : (accts.map (fun c => lowerStr c.uname)).Nodup)
    (hemNd : (accts.map (fun c => lowerStr c.email)).Nodup) :
    (∀ a ∈ accts,
      (entriesRef (runDestrKeys s0 ks 0).1 "users/by-username/"
        a.uid).length = 1 ∧
      (entriesRef (runDestrKeys s0 ks 0).1 "users/by-email/"
        a.uid).length = 1) ∧
    (∀ k w,
      strHasPre "users/by-username/" k = true ∨
        strHasPre "users/by-email/" k = true →
      sget (runDestrKeys s0 ks 0).1 k = some (Obj.index w) →
      ∃ c ∈ accts, w = c.uid ∧
        sget (runDestrKeys s0 ks 0).1 (acctKey w) =
          some (Obj.account c.uname c.pw c.email c.bday)) := by
  have hksIdx : ∀ k ∈ ks, strHasPre "users/by-username/" k = false ∧
      strHasPre "users/by-email/" k = false := by
    intro k hk
    rcases hksS k hk with ⟨c, hc, rfl⟩
    exact hshape c hc
  have hchar : ∀ q, sget (runDestrKeys s0 ks 0).1 q =
      match lastIdxWrite s0 ks q with
      | some uid => some (Obj.index uid)
      | none => sget s0 q :=
    runDestrKeys_sget s0 ks s0 0 (fun kk _ _ => rfl) hksIdx
  have hndf : (keysOf (runDestrKeys s0 ks 0).1).Nodup :=
    runDestrKeys_nodup ks s0 0 hnd0
  have hinjU := List.inj_on_of_nodup_map hunNd
  have hinjE := List.inj_on_of_nodup_map hemNd
  have hinjId := List.inj_on_of_nodup_map hidsNd
  have hacctNoLW : ∀ c ∈ accts,
      lastIdxWrite s0 ks (acctKey c.uid) = none := by
    intro c hc
    cases hlw : lastIdxWrite s0 ks (acctKey c.uid) with
    | none => rfl
    | some w =>
        rcases lastIdxWrite_some_elim hlw with
          ⟨k', hk', u', pw', e', b', hv', hqor, hw⟩
        rcases hqor with hq | hq
        · have hb := (hshape c hc).1
          rw [hq, unameKey_pre] at hb
          exact Bool.noConfusion hb
        · have hb := (hshape c hc).2
          rw [hq, emailKey_pre] at hb
          exact Bool.noConfusion hb
  have hacctF : ∀ c ∈ accts,
      sget (runDestrKeys s0 ks 0).1 (acctKey c.uid) =
        some (Obj.account c.uname c.pw c.email c.bday) := by
    intro c hc
    rw [hchar (acctKey c.uid), hacctNoLW c hc]
    exact hacct0 c hc
  have hsound : ∀ k w,
      (strHasPre "users/by-username/" k = true ∨
        strHasPre "users/by-email/" k = true) →
      sget (runDestrKeys s0 ks 0).1 k = some (Obj.index w) →
      ∃ c ∈ accts, w = c.uid ∧
        (k = unameKey (lowerStr c.uname) ∨
          k = emailKey (lowerStr c.email)) := by
    intro k w hpre hk
    rw [hchar k] at hk
    cases hlw : lastIdxWrite s0 ks k with
    | none =>
        rw [hlw] at hk
        rw [hnoidx0 k hpre] at hk
        exact Option.noConfusion hk
    | some w' =>
        rw [hlw] at hk
        have hww : w' = w := Obj.index.inj (Option.some.inj hk)
        rcases lastIdxWrite_some_elim hlw with
          ⟨k', hk', u', pw', e', b', hv', hqor, hw'⟩
        rcases hksS k' hk' with ⟨c, hc, rfl⟩
        rw [hacct0 c hc] at hv'
        obtain ⟨hu, hpw, he', hb'⟩ := Obj.account.inj (Option.some.inj hv')
        refine ⟨c, hc, ?_, ?_⟩
        · rw [← hww, hw', huid c hc]
        · rcases hqor with h | h
          · left
            rw [h, ← hu]
          · right
            rw [h, ← he']
  have hcountU : ∀ a ∈ accts,
      (entriesRef (runDestrKeys s0 ks 0).1 "users/by-username/"
        a.uid).length = 1 := by
    intro a ha
    apply length_eq_one_of_mem_iff (entriesRef_nodup hndf)
    intro y
    rw [mem_entriesRef]
    constructor
    · rintro ⟨hymem, hypre, hyget⟩
      rcases hsound y a.uid (Or.inl hypre) hyget with ⟨c, hc, hwc, hyor⟩
      have hca : c = a := hinjId hc ha hwc.symm
      rcases hyor with h | h
      · rw [h, hca]
      · rw [h] at hypre
        have h1 := not_pre_email_of_pre_uname hypre
        rw [emailKey_pre] at h1
        exact Bool.noConfusion h1
    · rintro rfl
      have hka : sget (runDestrKeys s0 ks 0).1
          (unameKey (lowerStr a.uname)) = some (Obj.index a.uid) := by
        rw [hchar, lastIdxWrite_uname_complete s0 ks accts a ha hksS
          (hksC a ha) hacct0 huid (fun x hx y hy hxy => hinjU hx hy hxy)]
      exact ⟨sget_some_mem_keysOf hka, unameKey_pre _, hka⟩
  have hcountE : ∀ a ∈ accts,
      (entriesRef (runDestrKeys s0 ks 0).1 "users/by-email/"
        a.uid).length = 1 := by
    intro a ha
    apply length_eq_one_of_mem_iff (entriesRef_nodup hndf)
    intro y
    rw [mem_entriesRef]
    constructor
    · rintro ⟨hymem, hypre, hyget⟩
      rcases hsound y a.uid (Or.inr hypre) hyget with ⟨c, hc, hwc, hyor⟩
      have hca : c = a := hinjId hc ha hwc.symm
      rcases hyor with h | h
      · rw [h] at hypre
        have h1 := not_pre_email_of_pre_uname (unameKey_pre (lowerStr c.uname))
        rw [hypre] at h1
        exact Bool.noConfusion h1
      · rw [h, hca]
    · rintro rfl
      have hka : sget (runDestrKeys s0 ks 0).1
          (emailKey (lowerStr a.email)) = some (Obj.index a.uid) := by
        rw [hchar, lastIdxWrite_email_complete s0 ks accts a ha hksS
          (hksC a ha) hacct0 huid (fun x hx y hy hxy => hinjE hx hy hxy)]
      exact ⟨sget_some_mem_keysOf hka, emailKey_pre _, hka⟩
  refine ⟨fun a ha => ⟨hcountU a ha, hcountE a ha⟩, ?_⟩
  intro k w hpre hk
  rcases hsound k w hpre hk with ⟨c, hc, hwc, -⟩
  refine ⟨c, hc, hwc, ?_⟩
  rw [hwc]
  exact hacctF c hc

/-- C3 amended: after the destructive clear-and-rebuild pass, provided
every stored account record parses, account keys have the canonical
`users/<id>/account.json` shape outside the index namespaces, and the
normalized usernames and emails are pairwise distinct, every account
record has exactly one by-username and one by-email entry referencing its
id, and no index entry references a nonexistent account id. -/
theorem destructive_rebuild_postcondition
    (st : Store) (pagesU pagesE pages : List (List String))
    (accts : List AcctRec)
    (hnd : (keysOf st).Nodup)
    (hUc : ∀ k ∈ keysOf st, strHasPre "users/by-username/" k = true →
      k ∈ pagesU.flatten)
    (hEc : ∀ k ∈ keysOf st, strHasPre "users/by-email/" k = true →
      k ∈ pagesE.flatten)
    (hUs : ∀ k ∈ pagesU.flatten, strHasPre "users/by-username/" k = true)
    (hEs : ∀ k ∈ pagesE.flatten, strHasPre "users/by-email/" k = true)
    (hksS : ∀ k ∈ visitedAccountKeys pages,
      ∃ c ∈ accts, k = acctKey c.uid)
    (hksC : ∀ c ∈ accts, acctKey c.uid ∈ visitedAccountKeys pages)
    (hacct : ∀ c ∈ accts, sget st (acctKey c.uid) =
      some (Obj.account c.uname c.pw c.email c.bday))
    (hshape : ∀ c ∈ accts,
      strHasPre "users/by-username/" (acctKey c.uid) = false ∧
      strHasPre "users/by-email/" (acctKey c.uid) = false)
    (huid : ∀ c ∈ accts, uidOf (acctKey c.uid) = c.uid)
    (hidsNd : (accts.map AcctRec.uid).Nodup)
    (hunNd : (accts.map (fun c => lowerStr c.uname)).Nodup)
    (hemNd : (accts.map (fun c => lowerStr c.email)).Nodup) :
    (∀ a ∈ accts,
      (entriesRef (rebuildDestructive st pagesU pagesE pages).1
        "users/by-username/" a.uid).length = 1 ∧
      (entriesRef (rebuildDestructive st pagesU pagesE pages).1
        "users/by-email/" a.uid).length = 1) ∧
    (∀ k w,
      strHasPre "users/by-username/" k = true ∨
        strHasPre "users/by-email/" k = true →
      sget (rebuildDestructive st pagesU pagesE pages).1 k =
        some (Obj.index w) →
      ∃ c ∈ accts, w = c.uid ∧
        sget (rebuildDestructive st pagesU pagesE pages).1 (acctKey w) =
          some (Obj.account c.uname c.pw c.email c.bday)) := by
  have hrw : rebuildDestructive st pagesU pagesE pages =
      runDestrKeys (clearLoop (clearLoop st pagesU) pagesE)
        (visitedAccountKeys pages) 0 := by
    unfold rebuildDestructive
    exact rebuildDestructive_eq_run pages _
  rw [hrw]
  have hget0 : ∀ k, sget (clearLoop (clearLoop st pagesU) pagesE) k =
      if k ∈ pagesE.flatten then none
      else if k ∈ pagesU.flatten then none else sget st k := by
    intro k
    rw [sget_clearLoop, sget_clearLoop]
  have hnoidx0 : ∀ k, strHasPre "users/by-username/" k = true ∨
      strHasPre "users/by-email/" k = true →
      sget (clearLoop (clearLoop st pagesU) pagesE) k = none := by
    intro k hpre
    rw [hget0 k]
    by_cases h1 : k ∈ pagesE.flatten
    · rw [if_pos h1]
    · rw [if_neg h1]
      by_cases h2 : k ∈ pagesU.flatten
      · rw [if_pos h2]
      · rw [if_neg h2]
        cases hv : sget st k with
        | none => rfl
        | some v =>
            exfalso
            have hkm : k ∈ keysOf st := sget_some_mem_keysOf hv
            rcases hpre with hp | hp
            · exact h2 (hUc k hkm hp)
            · exact h1 (hEc k hkm hp)
  have hacct0 : ∀ c ∈ accts,
      sget (clearLoop (clearLoop st pagesU) pagesE) (acctKey c.uid) =
        some (Obj.account c.uname c.pw c.email c.bday) := by
    intro c hc
    rw [hget0]
    rw [if_neg (fun hmem => by
      have hb := hEs _ hmem
      rw [(hshape c hc).2] at hb
      exact Bool.noConfusion hb)]
    rw [if_neg (fun hmem => by
      have hb := hUs _ hmem
      rw [(hshape c hc).1] at hb
      exact Bool.noConfusion hb)]
    exact hacct c hc
  have hnd0 : (keysOf (clearLoop (clearLoop st pagesU) pagesE)).Nodup :=
    keysOf_clearLoop_nodup pagesE _ (keysOf_clearLoop_nodup pagesU st hnd)
  exact destr_post_core _ _ accts hnd0 hnoidx0 hksS hksC hacct0 hshape
    huid hidsNd hunNd hemNd

/-- Witness for `destructive_rebuild_postcondition` on a concrete
two-account store with a stale index entry. -/
theorem destructive_rebuild_postcondition_witness :
    (entriesRef (rebuildDestructive wDistinctStore
        [[unameKeyOf "stale"]] [[]] [[acctKey "u1"], [acctKey "u2"]]).1
      "users/by-username/" "u1").length = 1 ∧
    (entriesRef (rebuildDestructive wDistinctStore
        [[unameKeyOf "stale"]] [[]] [[acctKey "u1"], [acctKey "u2"]]).1
      "users/by-email/" "u1").length = 1 :=
  (destructive_rebuild_postcondition wDistinctStore
    [[unameKeyOf "stale"]] [[]] [[acctKey "u1"], [acctKey "u2"]] wAccts2
    (by decide) (by decide) (by decide) (by decide) (by decide)
    (by decide) (by decide) (by decide) (by decide) (by decide)
    (by decide) (by decide) (by decide)).1
    ⟨"u1", "alice", "h1", "a@x.com", "2000-01-01"⟩ (by decide)

/-- C3 counterexample: with two account records sharing the normalized
username `alice` (the race-duplicate shape the spec itself documents as
reachable), the destructive rebuild completes with a 200 response, yet
account `u1` is left with zero by-username entries referencing it. -/
theorem destructive_rebuild_duplicate_username_violates_postcondition :
    sget wDupStore (acctKey "u1") =
      some (Obj.account "alice" "h1" "a@x.com" "2000-01-01") ∧
    (handleRebuildIndexesDestr wDupStore [[]] [[]]
      [[acctKey "u1", acctKey "u2"]]).1.statusCode = 200 ∧
    (entriesRef (handleRebuildIndexesDestr wDupStore [[]] [[]]
        [[acctKey "u1", acctKey "u2"]]).2
      "users/by-username/" "u1").length = 0 := by
  decide
